import Mathlib

/-!
Verification of the control-flow resolution pass of
`executable_semantics/interpreter/resolve_control_flow.cpp` (Carbon Language
executable semantics).

The pass walks the statement tree of each function body, binding each
`return` to its enclosing function declaration and each `break`/`continue`
to its innermost enclosing loop, raising a fatal compilation error at the
first violation.  We embed the AST fragment the pass inspects and the pass
itself.  In-place mutation of the tree is modelled by state passing: the
resolver returns the tree with resolved links installed; a raised fatal
error is modelled by an `Option CFError` component that, when set, carries
the tree exactly as mutated up to the abort point (the C++ pass mutates in
place and then aborts, so mutations performed before the failing statement
persist while everything after it is untouched).

Node identity (C++ pointer identity of the `While` node stored by
`Break::set_loop` / `Continue::set_loop`, and of the `FunctionDeclaration`
stored by `Return::set_function`) is modelled by the node's source location
(`loc : Nat`) for statements and by a numeric `id` for declarations; in the
real AST every node has a distinct source location.
-/

namespace CarbonResolve

/-- The return-term descriptor of a function declaration
(`executable_semantics/ast/return_term.h`): whether the return type is
deduced (`auto`) and whether the declared contract omits a return value. -/
structure ReturnTerm where
  is_auto : Bool
  is_omitted : Bool
deriving DecidableEq, Repr

/- Statements, from `executable_semantics/ast/statement.h`, restricted to
the structure that `ResolveControlFlow` inspects.

* Every statement carries its source location as a `Nat`.
* `Return` carries `is_omitted_expression` (whether the return supplies no
  value) and its mutable resolved target `function` (id of the bound
  `FunctionDeclaration`, `none` until the pass sets it).
* `Break` and `Continue` carry their mutable resolved target `loop` (source
  location of the bound `While` node, `none` until the pass sets it).
* A `Match` clause's pattern is ignored by the pass (only
  `clause.statement()` is visited), so clauses are represented by their
  body statements.
* `ExpressionStatement`, `Assign`, `VariableDefinition`, `Run` and `Await`
  are not recursed into by the pass; each is a leaf carrying its location.

`OptStmt` is the optional else-block of an `If`
(`std::optional<Nonnull<Statement*>>`), and `StmtList` the statement list
of a `Block` and the clause-body list of a `Match`; both are part of the
mutual inductive so that recursion over the tree is plainly structural. -/
mutual
inductive Stmt : Type where
  | Return (loc : Nat) (is_omitted_expression : Bool) (function : Option Nat)
  | Break (loc : Nat) (loop : Option Nat)
  | Continue (loc : Nat) (loop : Option Nat)
  | If (loc : Nat) (then_block : Stmt) (else_block : OptStmt)
  | Block (loc : Nat) (statements : StmtList)
  | While (loc : Nat) (body : Stmt)
  | Match (loc : Nat) (clauses : StmtList)
  | Continuation (loc : Nat) (body : Stmt)
  | ExpressionStatement (loc : Nat)
  | Assign (loc : Nat)
  | VariableDefinition (loc : Nat)
  | Run (loc : Nat)
  | Await (loc : Nat)

inductive OptStmt : Type where
  | none
  | some (s : Stmt)

inductive StmtList : Type where
  | nil
  | cons (s : Stmt) (rest : StmtList)
end

/-- A function declaration as the pass sees it: identity, return term, and
optional body. -/
structure FunctionDeclaration where
  id : Nat
  return_term : ReturnTerm
  body : OptStmt

/-- Aggregate information about a function being analyzed (struct
`FunctionData` in the source). -/
structure FunctionData where
  declaration : FunctionDeclaration
  saw_return_in_auto : Bool

/-- The fatal compilation errors the pass can raise, each carrying the
source location passed to `FATAL_COMPILATION_ERROR`. -/
inductive CFError : Type where
  | returnOutsideFunction (loc : Nat)
  | multipleReturnsInAuto (loc : Nat)
  | presenceMismatch (loc : Nat) (function_return_is_omitted : Bool)
  | breakOutsideLoop (loc : Nat)
  | continueOutsideLoop (loc : Nat)
deriving DecidableEq, Repr

/-- The source location a fatal error was raised at. -/
def CFError.loc : CFError → Nat
  | .returnOutsideFunction l => l
  | .multipleReturnsInAuto l => l
  | .presenceMismatch l _ => l
  | .breakOutsideLoop l => l
  | .continueOutsideLoop l => l

/-- The message text streamed into each fatal error.  For the
value-presence mismatch the C++ code first streams the offending return
statement itself (`<< ret`); that printed-statement prefix is abstracted
away and only the fixed text after it is modelled. -/
def CFError.message : CFError → String
  | .returnOutsideFunction _ => "return is not within a function body"
  | .multipleReturnsInAuto _ =>
      "Only one return is allowed in a function with an `auto` return type."
  | .presenceMismatch _ fnOmitted =>
      " should" ++ (if fnOmitted then " not" else "")
        ++ " provide a return value, to match the function's signature."
  | .breakOutsideLoop _ => "break is not within a loop body"
  | .continueOutsideLoop _ => "continue is not within a loop body"

/- The statement-level `ResolveControlFlow(statement, loop, function)`.

`loop` is the innermost loop that statically encloses the statement (its
source location), or `none`.  `function` is the `FunctionData` of the
enclosing function body, or `none` (e.g. inside a continuation body); the
C++ code mutates it through a pointer, modelled by returning the updated
value.  The result is `(error?, statement as mutated so far, function)`:
when `error?` is `some`, the returned tree carries exactly the mutations
performed before the abort. -/
mutual
def ResolveControlFlowStmt :
    Stmt → Option Nat → Option FunctionData →
      Option CFError × Stmt × Option FunctionData
  | .Return l om f0, _, fdOpt =>
    match fdOpt with
    | Option.none => (some (.returnOutsideFunction l), .Return l om f0, none)
    | Option.some data =>
      let function_return := data.declaration.return_term
      if function_return.is_auto && data.saw_return_in_auto then
        (some (.multipleReturnsInAuto l), .Return l om f0, some data)
      else
        let data' :=
          if function_return.is_auto then
            { data with saw_return_in_auto := true }
          else data
        let s' := Stmt.Return l om (some data.declaration.id)
        if om != function_return.is_omitted then
          (some (.presenceMismatch l function_return.is_omitted), s', some data')
        else
          (none, s', some data')
  | .Break l lp0, loopOpt, fdOpt =>
    match loopOpt with
    | Option.none => (some (.breakOutsideLoop l), .Break l lp0, fdOpt)
    | Option.some w => (none, .Break l (some w), fdOpt)
  | .Continue l lp0, loopOpt, fdOpt =>
    match loopOpt with
    | Option.none => (some (.continueOutsideLoop l), .Continue l lp0, fdOpt)
    | Option.some w => (none, .Continue l (some w), fdOpt)
  | .If l thenB elseB, loopOpt, fdOpt =>
    match ResolveControlFlowStmt thenB loopOpt fdOpt with
    | (some e, thenB', fd1) => (some e, .If l thenB' elseB, fd1)
    | (none, thenB', fd1) =>
      match ResolveControlFlowStmtOpt elseB loopOpt fd1 with
      | (e2, elseB', fd2) => (e2, .If l thenB' elseB', fd2)
  | .Block l ss, loopOpt, fdOpt =>
    match ResolveControlFlowStmtList ss loopOpt fdOpt with
    | (e, ss', fd') => (e, .Block l ss', fd')
  | .While l body, _, fdOpt =>
    match ResolveControlFlowStmt body (some l) fdOpt with
    | (e, body', fd') => (e, .While l body', fd')
  | .Match l cs, loopOpt, fdOpt =>
    match ResolveControlFlowStmtList cs loopOpt fdOpt with
    | (e, cs', fd') => (e, .Match l cs', fd')
  | .Continuation l body, _, fdOpt =>
    match ResolveControlFlowStmt body none none with
    | (e, body', _) => (e, .Continuation l body', fdOpt)
  | .ExpressionStatement l, _, fdOpt => (none, .ExpressionStatement l, fdOpt)
  | .Assign l, _, fdOpt => (none, .Assign l, fdOpt)
  | .VariableDefinition l, _, fdOpt => (none, .VariableDefinition l, fdOpt)
  | .Run l, _, fdOpt => (none, .Run l, fdOpt)
  | .Await l, _, fdOpt => (none, .Await l, fdOpt)

/- Resolution of the optional else-block of an `If`: the C++ code guards
the recursive call with `if (if_stmt.else_block().has_value())`; absence
resolves to nothing. -/
def ResolveControlFlowStmtOpt :
    OptStmt → Option Nat → Option FunctionData →
      Option CFError × OptStmt × Option FunctionData
  | .none, _, fdOpt => (none, .none, fdOpt)
  | .some s, loopOpt, fdOpt =>
    match ResolveControlFlowStmt s loopOpt fdOpt with
    | (e, s', fd') => (e, .some s', fd')

/- Resolution of a statement sequence (the statements of a `Block` and the
clause bodies of a `Match`): statements are resolved in order; the first
error aborts, leaving the remaining statements untouched. -/
def ResolveControlFlowStmtList :
    StmtList → Option Nat → Option FunctionData →
      Option CFError × StmtList × Option FunctionData
  | .nil, _, fdOpt => (none, .nil, fdOpt)
  | .cons s rest, loopOpt, fdOpt =>
    match ResolveControlFlowStmt s loopOpt fdOpt with
    | (some e, s', fd') => (some e, .cons s' rest, fd')
    | (none, s', fd') =>
      match ResolveControlFlowStmtList rest loopOpt fd' with
      | (e2, rest', fd2) => (e2, .cons s' rest', fd2)
end

/- Node count of a statement tree; every argument of a recursive call of
`ResolveControlFlowStmt` has strictly smaller size. -/
mutual
def Stmt.size : Stmt → Nat
  | .If _ t e => 1 + t.size + OptStmt.size e
  | .Block _ ss => 1 + ss.size
  | .While _ b => 1 + b.size
  | .Match _ cs => 1 + cs.size
  | .Continuation _ b => 1 + b.size
  | _ => 1

def OptStmt.size : OptStmt → Nat
  | .none => 1
  | .some s => 1 + s.size

def StmtList.size : StmtList → Nat
  | .nil => 1
  | .cons s rest => 1 + s.size + rest.size
end

/- Fuel-bounded variant of the resolver, case for case the same as
`ResolveControlFlowStmt` except that every recursive call (including the
statement-list ones) consumes one unit of fuel; `none` means the fuel ran
out.  Used to show that the recursion depth of the pass is bounded by the
size of the statement tree: each recursive call is on a strict subterm. -/
mutual
def ResolveControlFlowStmtF :
    Nat → Stmt → Option Nat → Option FunctionData →
      Option (Option CFError × Stmt × Option FunctionData)
  | 0, _, _, _ => none
  | _ + 1, .Return l om f0, loopOpt, fdOpt =>
    some (ResolveControlFlowStmt (.Return l om f0) loopOpt fdOpt)
  | _ + 1, .Break l lp0, loopOpt, fdOpt =>
    some (ResolveControlFlowStmt (.Break l lp0) loopOpt fdOpt)
  | _ + 1, .Continue l lp0, loopOpt, fdOpt =>
    some (ResolveControlFlowStmt (.Continue l lp0) loopOpt fdOpt)
  | fuel + 1, .If l thenB elseB, loopOpt, fdOpt =>
    match ResolveControlFlowStmtF fuel thenB loopOpt fdOpt with
    | Option.none => none
    | Option.some (some e, thenB', fd1) => some (some e, .If l thenB' elseB, fd1)
    | Option.some (none, thenB', fd1) =>
      match ResolveControlFlowStmtOptF fuel elseB loopOpt fd1 with
      | Option.none => none
      | Option.some (e2, elseB', fd2) => some (e2, .If l thenB' elseB', fd2)
  | fuel + 1, .Block l ss, loopOpt, fdOpt =>
    match ResolveControlFlowStmtListF fuel ss loopOpt fdOpt with
    | Option.none => none
    | Option.some (e, ss', fd') => some (e, .Block l ss', fd')
  | fuel + 1, .While l body, _, fdOpt =>
    match ResolveControlFlowStmtF fuel body (some l) fdOpt with
    | Option.none => none
    | Option.some (e, body', fd') => some (e, .While l body', fd')
  | fuel + 1, .Match l cs, loopOpt, fdOpt =>
    match ResolveControlFlowStmtListF fuel cs loopOpt fdOpt with
    | Option.none => none
    | Option.some (e, cs', fd') => some (e, .Match l cs', fd')
  | fuel + 1, .Continuation l body, _, fdOpt =>
    match ResolveControlFlowStmtF fuel body none none with
    | Option.none => none
    | Option.some (e, body', _) => some (e, .Continuation l body', fdOpt)
  | _ + 1, .ExpressionStatement l, _, fdOpt =>
    some (none, .ExpressionStatement l, fdOpt)
  | _ + 1, .Assign l, _, fdOpt => some (none, .Assign l, fdOpt)
  | _ + 1, .VariableDefinition l, _, fdOpt =>
    some (none, .VariableDefinition l, fdOpt)
  | _ + 1, .Run l, _, fdOpt => some (none, .Run l, fdOpt)
  | _ + 1, .Await l, _, fdOpt => some (none, .Await l, fdOpt)

def ResolveControlFlowStmtOptF :
    Nat → OptStmt → Option Nat → Option FunctionData →
      Option (Option CFError × OptStmt × Option FunctionData)
  | 0, _, _, _ => none
  | _ + 1, .none, _, fdOpt => some (none, .none, fdOpt)
  | fuel + 1, .some s, loopOpt, fdOpt =>
    match ResolveControlFlowStmtF fuel s loopOpt fdOpt with
    | Option.none => none
    | Option.some (e, s', fd') => some (e, .some s', fd')

def ResolveControlFlowStmtListF :
    Nat → StmtList → Option Nat → Option FunctionData →
      Option (Option CFError × StmtList × Option FunctionData)
  | 0, _, _, _ => none
  | _ + 1, .nil, _, fdOpt => some (none, .nil, fdOpt)
  | fuel + 1, .cons s rest, loopOpt, fdOpt =>
    match ResolveControlFlowStmtF fuel s loopOpt fdOpt with
    | Option.none => none
    | Option.some (some e, s', fd') => some (some e, .cons s' rest, fd')
    | Option.some (none, s', fd') =>
      match ResolveControlFlowStmtListF fuel rest loopOpt fd' with
      | Option.none => none
      | Option.some (e2, rest', fd2) => some (e2, .cons s' rest', fd2)
end

/- Source locations of the `Return` statements that the pass visits with
the current function context, in traversal order.  `Continuation` bodies
are excluded: the pass visits them with the function context cleared, so
`Return`s inside them never reach the function being analyzed. -/
mutual
def returnLocs : Stmt → List Nat
  | .Return l _ _ => [l]
  | .If _ t e => returnLocs t ++ returnLocsOpt e
  | .Block _ ss => returnLocsList ss
  | .While _ b => returnLocs b
  | .Match _ cs => returnLocsList cs
  | _ => []

def returnLocsOpt : OptStmt → List Nat
  | .none => []
  | .some s => returnLocs s

def returnLocsList : StmtList → List Nat
  | .nil => []
  | .cons s rest => returnLocs s ++ returnLocsList rest
end

/- True when the tree contains no `Return` node at all, including inside
nested `Continuation` bodies. -/
mutual
def noReturns : Stmt → Bool
  | .Return _ _ _ => false
  | .If _ t e => noReturns t && noReturnsOpt e
  | .Block _ ss => noReturnsList ss
  | .While _ b => noReturns b
  | .Match _ cs => noReturnsList cs
  | .Continuation _ b => noReturns b
  | _ => true

def noReturnsOpt : OptStmt → Bool
  | .none => true
  | .some s => noReturns s

def noReturnsList : StmtList → Bool
  | .nil => true
  | .cons s rest => noReturns s && noReturnsList rest
end

/- True when every `Return` node in the tree (including inside nested
`Continuation` bodies) has its resolved `function` field set to `fid`. -/
mutual
def returnsBoundTo : Stmt → Nat → Bool
  | .Return _ _ f, fid => f == some fid
  | .If _ t e, fid => returnsBoundTo t fid && returnsBoundToOpt e fid
  | .Block _ ss, fid => returnsBoundToList ss fid
  | .While _ b, fid => returnsBoundTo b fid
  | .Match _ cs, fid => returnsBoundToList cs fid
  | .Continuation _ b, fid => returnsBoundTo b fid
  | _, _ => true

def returnsBoundToOpt : OptStmt → Nat → Bool
  | .none, _ => true
  | .some s, fid => returnsBoundTo s fid

def returnsBoundToList : StmtList → Nat → Bool
  | .nil, _ => true
  | .cons s rest, fid => returnsBoundTo s fid && returnsBoundToList rest fid
end

/- The input-side conditions under which the pass raises no diagnostic,
ignoring the auto-return restriction: every `Break`/`Continue` is inside a
loop (`hasLoop` says whether one encloses the current subtree), every
`Return` is inside a function and its value-presence matches that
function's contract (`contract` is `some` of the enclosing function's
return term, `none` outside any function body), and continuation bodies
satisfy the same conditions with both contexts cleared. -/
mutual
def resolvesCleanly : Stmt → Bool → Option ReturnTerm → Bool
  | .Return _ om _, _, contract =>
      match contract with
      | Option.none => false
      | Option.some rt => om == rt.is_omitted
  | .Break _ _, hasLoop, _ => hasLoop
  | .Continue _ _, hasLoop, _ => hasLoop
  | .If _ t e, hasLoop, contract =>
      resolvesCleanly t hasLoop contract && resolvesCleanlyOpt e hasLoop contract
  | .Block _ ss, hasLoop, contract => resolvesCleanlyList ss hasLoop contract
  | .While _ b, _, contract => resolvesCleanly b true contract
  | .Match _ cs, hasLoop, contract => resolvesCleanlyList cs hasLoop contract
  | .Continuation _ b, _, _ => resolvesCleanly b false none
  | _, _, _ => true

def resolvesCleanlyOpt : OptStmt → Bool → Option ReturnTerm → Bool
  | .none, _, _ => true
  | .some s, hasLoop, contract => resolvesCleanly s hasLoop contract

def resolvesCleanlyList : StmtList → Bool → Option ReturnTerm → Bool
  | .nil, _, _ => true
  | .cons s rest, hasLoop, contract =>
      resolvesCleanly s hasLoop contract
        && resolvesCleanlyList rest hasLoop contract
end

/- Declarations, from `executable_semantics/ast/declaration.h`, restricted
to what the declaration-level `ResolveControlFlow` distinguishes: function
declarations, class declarations with their member list, and every other
declaration kind (`default: do nothing`) collapsed into `otherDecl`. -/
mutual
inductive Declaration : Type where
  | functionDecl (function : FunctionDeclaration)
  | classDecl (id : Nat) (members : DeclarationList)
  | otherDecl (id : Nat)

inductive DeclarationList : Type where
  | nil
  | cons (d : Declaration) (rest : DeclarationList)
end

/- The declaration-level `ResolveControlFlow(declaration)`: a function
declaration with a body resolves the body with no enclosing loop and a
fresh `FunctionData` (flag initially false, discarded afterwards — only
the mutated body survives); a class declaration recurses into each member
independently; other kinds do nothing.  The member list is processed in
order with the first error aborting, later members untouched. -/
mutual
def ResolveControlFlowDecl : Declaration → Option CFError × Declaration
  | .functionDecl f =>
    match f.body with
    | .none => (none, .functionDecl f)
    | .some b =>
      match ResolveControlFlowStmt b none (some ⟨f, false⟩) with
      | (e, b', _) => (e, .functionDecl ⟨f.id, f.return_term, .some b'⟩)
  | .classDecl i members =>
    match ResolveControlFlowDeclList members with
    | (e, members') => (e, .classDecl i members')
  | .otherDecl i => (none, .otherDecl i)

def ResolveControlFlowDeclList : DeclarationList → Option CFError × DeclarationList
  | .nil => (none, .nil)
  | .cons d rest =>
    match ResolveControlFlowDecl d with
    | (some e, d') => (some e, .cons d' rest)
    | (none, d') =>
      match ResolveControlFlowDeclList rest with
      | (e, rest') => (e, .cons d' rest')
end

/-- The top-level `ResolveControlFlow(AST&)`: resolve each top-level
declaration in order, aborting at the first fatal error. -/
def ResolveControlFlowAST (declarations : DeclarationList) :
    Option CFError × DeclarationList :=
  ResolveControlFlowDeclList declarations

/- Step equations for the resolver, one per case of the source `switch`;
each holds by definitional unfolding.  They stand in for the automatically
generated equation lemmas, which Lean cannot produce for this mutual
definition. -/

theorem resolve_Return_noFunction (l : Nat) (om : Bool) (f0 : Option Nat)
    (loopOpt : Option Nat) :
    ResolveControlFlowStmt (.Return l om f0) loopOpt none
      = (some (.returnOutsideFunction l), .Return l om f0, none) := rfl

theorem resolve_Return_function (l : Nat) (om : Bool) (f0 : Option Nat)
    (loopOpt : Option Nat) (data : FunctionData) :
    ResolveControlFlowStmt (.Return l om f0) loopOpt (some data)
      = if data.declaration.return_term.is_auto && data.saw_return_in_auto then
          (some (.multipleReturnsInAuto l), .Return l om f0, some data)
        else
          let data' :=
            if data.declaration.return_term.is_auto then
              { data with saw_return_in_auto := true }
            else data
          if om != data.declaration.return_term.is_omitted then
            (some (.presenceMismatch l data.declaration.return_term.is_omitted),
              .Return l om (some data.declaration.id), some data')
          else
            (none, .Return l om (some data.declaration.id), some data') := rfl

theorem resolve_Break_noLoop (l : Nat) (lp0 : Option Nat)
    (fdOpt : Option FunctionData) :
    ResolveControlFlowStmt (.Break l lp0) none fdOpt
      = (some (.breakOutsideLoop l), .Break l lp0, fdOpt) := rfl

theorem resolve_Break_loop (l : Nat) (lp0 : Option Nat) (w : Nat)
    (fdOpt : Option FunctionData) :
    ResolveControlFlowStmt (.Break l lp0) (some w) fdOpt
      = (none, .Break l (some w), fdOpt) := rfl

theorem resolve_Continue_noLoop (l : Nat) (lp0 : Option Nat)
    (fdOpt : Option FunctionData) :
    ResolveControlFlowStmt (.Continue l lp0) none fdOpt
      = (some (.continueOutsideLoop l), .Continue l lp0, fdOpt) := rfl

theorem resolve_Continue_loop (l : Nat) (lp0 : Option Nat) (w : Nat)
    (fdOpt : Option FunctionData) :
    ResolveControlFlowStmt (.Continue l lp0) (some w) fdOpt
      = (none, .Continue l (some w), fdOpt) := rfl

theorem resolve_If (l : Nat) (thenB : Stmt) (elseB : OptStmt)
    (loopOpt : Option Nat) (fdOpt : Option FunctionData) :
    ResolveControlFlowStmt (.If l thenB elseB) loopOpt fdOpt
      = match ResolveControlFlowStmt thenB loopOpt fdOpt with
        | (some e, thenB', fd1) => (some e, .If l thenB' elseB, fd1)
        | (none, thenB', fd1) =>
          match ResolveControlFlowStmtOpt elseB loopOpt fd1 with
          | (e2, elseB', fd2) => (e2, .If l thenB' elseB', fd2) := rfl

theorem resolveOpt_none (loopOpt : Option Nat) (fdOpt : Option FunctionData) :
    ResolveControlFlowStmtOpt .none loopOpt fdOpt = (none, .none, fdOpt) := rfl

theorem resolveOpt_some (s : Stmt) (loopOpt : Option Nat)
    (fdOpt : Option FunctionData) :
    ResolveControlFlowStmtOpt (.some s) loopOpt fdOpt
      = match ResolveControlFlowStmt s loopOpt fdOpt with
        | (e, s', fd') => (e, .some s', fd') := rfl

theorem resolve_Block (l : Nat) (ss : StmtList) (loopOpt : Option Nat)
    (fdOpt : Option FunctionData) :
    ResolveControlFlowStmt (.Block l ss) loopOpt fdOpt
      = match ResolveControlFlowStmtList ss loopOpt fdOpt with
        | (e, ss', fd') => (e, .Block l ss', fd') := rfl

theorem resolve_While (l : Nat) (body : Stmt) (loopOpt : Option Nat)
    (fdOpt : Option FunctionData) :
    ResolveControlFlowStmt (.While l body) loopOpt fdOpt
      = match ResolveControlFlowStmt body (some l) fdOpt with
        | (e, body', fd') => (e, .While l body', fd') := rfl

theorem resolve_Match (l : Nat) (cs : StmtList) (loopOpt : Option Nat)
    (fdOpt : Option FunctionData) :
    ResolveControlFlowStmt (.Match l cs) loopOpt fdOpt
      = match ResolveControlFlowStmtList cs loopOpt fdOpt with
        | (e, cs', fd') => (e, .Match l cs', fd') := rfl

theorem resolve_Continuation (l : Nat) (body : Stmt) (loopOpt : Option Nat)
    (fdOpt : Option FunctionData) :
    ResolveControlFlowStmt (.Continuation l body) loopOpt fdOpt
      = match ResolveControlFlowStmt body none none with
        | (e, body', _) => (e, .Continuation l body', fdOpt) := rfl

theorem resolve_ExpressionStatement (l : Nat) (loopOpt : Option Nat)
    (fdOpt : Option FunctionData) :
    ResolveControlFlowStmt (.ExpressionStatement l) loopOpt fdOpt
      = (none, .ExpressionStatement l, fdOpt) := rfl

theorem resolve_Assign (l : Nat) (loopOpt : Option Nat)
    (fdOpt : Option FunctionData) :
    ResolveControlFlowStmt (.Assign l) loopOpt fdOpt
      = (none, .Assign l, fdOpt) := rfl

theorem resolve_VariableDefinition (l : Nat) (loopOpt : Option Nat)
    (fdOpt : Option FunctionData) :
    ResolveControlFlowStmt (.VariableDefinition l) loopOpt fdOpt
      = (none, .VariableDefinition l, fdOpt) := rfl

theorem resolve_Run (l : Nat) (loopOpt : Option Nat)
    (fdOpt : Option FunctionData) :
    ResolveControlFlowStmt (.Run l) loopOpt fdOpt
      = (none, .Run l, fdOpt) := rfl

theorem resolve_Await (l : Nat) (loopOpt : Option Nat)
    (fdOpt : Option FunctionData) :
    ResolveControlFlowStmt (.Await l) loopOpt fdOpt
      = (none, .Await l, fdOpt) := rfl

theorem resolveList_nil (loopOpt : Option Nat) (fdOpt : Option FunctionData) :
    ResolveControlFlowStmtList .nil loopOpt fdOpt = (none, .nil, fdOpt) := rfl

theorem resolveList_cons (s : Stmt) (rest : StmtList) (loopOpt : Option Nat)
    (fdOpt : Option FunctionData) :
    ResolveControlFlowStmtList (.cons s rest) loopOpt fdOpt
      = match ResolveControlFlowStmt s loopOpt fdOpt with
        | (some e, s', fd') => (some e, .cons s' rest, fd')
        | (none, s', fd') =>
          match ResolveControlFlowStmtList rest loopOpt fd' with
          | (e2, rest', fd2) => (e2, .cons s' rest', fd2) := rfl


/- Helper lemmas about traversals made with the function context cleared
(as inside a continuation body): the context stays `none`, the auto-return
diagnostic can never be raised, and a successful traversal implies the
tree contained no `Return` at all. -/
mutual
theorem resolve_fdNone (s : Stmt) (loopOpt : Option Nat) :
    (ResolveControlFlowStmt s loopOpt none).2.2 = none ∧
      (∀ l, (ResolveControlFlowStmt s loopOpt none).1
        ≠ some (CFError.multipleReturnsInAuto l)) ∧
      ((ResolveControlFlowStmt s loopOpt none).1 = none
        → noReturns s = true) := by
  cases s with
  | Return l om f0 =>
    rw [resolve_Return_noFunction]
    exact ⟨rfl, by simp, by simp⟩
  | Break l lp0 =>
    cases loopOpt with
    | none => rw [resolve_Break_noLoop]; exact ⟨rfl, by simp, fun _ => rfl⟩
    | some w => rw [resolve_Break_loop]; exact ⟨rfl, by simp, fun _ => rfl⟩
  | Continue l lp0 =>
    cases loopOpt with
    | none => rw [resolve_Continue_noLoop]; exact ⟨rfl, by simp, fun _ => rfl⟩
    | some w => rw [resolve_Continue_loop]; exact ⟨rfl, by simp, fun _ => rfl⟩
  | If l t e =>
    have ht := resolve_fdNone t loopOpt
    rcases hres : ResolveControlFlowStmt t loopOpt none with ⟨e1, t', fd1⟩
    rw [hres] at ht
    obtain ⟨hfd1, he1, hnr1⟩ := ht
    simp only at hfd1 he1 hnr1
    subst hfd1
    cases e1 with
    | some err =>
      have hstep : ResolveControlFlowStmt (.If l t e) loopOpt none
          = (some err, .If l t' e, none) := by simp only [resolve_If, hres]
      rw [hstep]
      exact ⟨rfl, fun lx => he1 lx, by simp⟩
    | none =>
      have he := resolveOpt_fdNone e loopOpt
      rcases hres2 : ResolveControlFlowStmtOpt e loopOpt none with ⟨e2, e', fd2⟩
      rw [hres2] at he
      obtain ⟨hfd2, he2, hnr2⟩ := he
      simp only at hfd2 he2 hnr2
      subst hfd2
      have hstep : ResolveControlFlowStmt (.If l t e) loopOpt none
          = (e2, .If l t' e', none) := by simp only [resolve_If, hres, hres2]
      rw [hstep]
      refine ⟨rfl, fun lx => he2 lx, fun hz => ?_⟩
      show (noReturns t && noReturnsOpt e) = true
      have h1 := hnr1 rfl
      have h2 := hnr2 hz
      simp [h1, h2]
  | Block l ss =>
    have h := resolveList_fdNone ss loopOpt
    rcases hres : ResolveControlFlowStmtList ss loopOpt none with ⟨e1, ss', fd1⟩
    rw [hres] at h
    obtain ⟨hfd, hee, hnr⟩ := h
    simp only at hfd hee hnr
    subst hfd
    have hstep : ResolveControlFlowStmt (.Block l ss) loopOpt none
        = (e1, .Block l ss', none) := by simp only [resolve_Block, hres]
    rw [hstep]
    exact ⟨rfl, fun lx => hee lx, fun hz => hnr hz⟩
  | While l b =>
    have h := resolve_fdNone b (some l)
    rcases hres : ResolveControlFlowStmt b (some l) none with ⟨e1, b', fd1⟩
    rw [hres] at h
    obtain ⟨hfd, hee, hnr⟩ := h
    simp only at hfd hee hnr
    subst hfd
    have hstep : ResolveControlFlowStmt (.While l b) loopOpt none
        = (e1, .While l b', none) := by simp only [resolve_While, hres]
    rw [hstep]
    exact ⟨rfl, fun lx => hee lx, fun hz => hnr hz⟩
  | Match l cs =>
    have h := resolveList_fdNone cs loopOpt
    rcases hres : ResolveControlFlowStmtList cs loopOpt none with ⟨e1, cs', fd1⟩
    rw [hres] at h
    obtain ⟨hfd, hee, hnr⟩ := h
    simp only at hfd hee hnr
    subst hfd
    have hstep : ResolveControlFlowStmt (.Match l cs) loopOpt none
        = (e1, .Match l cs', none) := by simp only [resolve_Match, hres]
    rw [hstep]
    exact ⟨rfl, fun lx => hee lx, fun hz => hnr hz⟩
  | Continuation l b =>
    have h := resolve_fdNone b none
    rcases hres : ResolveControlFlowStmt b none none with ⟨e1, b', fd1⟩
    rw [hres] at h
    obtain ⟨hfd, hee, hnr⟩ := h
    simp only at hfd hee hnr
    have hstep : ResolveControlFlowStmt (.Continuation l b) loopOpt none
        = (e1, .Continuation l b', none) := by simp only [resolve_Continuation, hres]
    rw [hstep]
    exact ⟨rfl, fun lx => hee lx, fun hz => hnr hz⟩
  | ExpressionStatement l =>
    rw [resolve_ExpressionStatement]; exact ⟨rfl, by simp, fun _ => rfl⟩
  | Assign l => rw [resolve_Assign]; exact ⟨rfl, by simp, fun _ => rfl⟩
  | VariableDefinition l =>
    rw [resolve_VariableDefinition]; exact ⟨rfl, by simp, fun _ => rfl⟩
  | Run l => rw [resolve_Run]; exact ⟨rfl, by simp, fun _ => rfl⟩
  | Await l => rw [resolve_Await]; exact ⟨rfl, by simp, fun _ => rfl⟩

theorem resolveOpt_fdNone (o : OptStmt) (loopOpt : Option Nat) :
    (ResolveControlFlowStmtOpt o loopOpt none).2.2 = none ∧
      (∀ l, (ResolveControlFlowStmtOpt o loopOpt none).1
        ≠ some (CFError.multipleReturnsInAuto l)) ∧
      ((ResolveControlFlowStmtOpt o loopOpt none).1 = none
        → noReturnsOpt o = true) := by
  cases o with
  | none => rw [resolveOpt_none]; exact ⟨rfl, by simp, fun _ => rfl⟩
  | some s =>
    have h := resolve_fdNone s loopOpt
    rcases hres : ResolveControlFlowStmt s loopOpt none with ⟨e1, s', fd1⟩
    rw [hres] at h
    obtain ⟨hfd, hee, hnr⟩ := h
    simp only at hfd hee hnr
    subst hfd
    have hstep : ResolveControlFlowStmtOpt (.some s) loopOpt none
        = (e1, .some s', none) := by simp only [resolveOpt_some, hres]
    rw [hstep]
    exact ⟨rfl, fun lx => hee lx, fun hz => hnr hz⟩

theorem resolveList_fdNone (ss : StmtList) (loopOpt : Option Nat) :
    (ResolveControlFlowStmtList ss loopOpt none).2.2 = none ∧
      (∀ l, (ResolveControlFlowStmtList ss loopOpt none).1
        ≠ some (CFError.multipleReturnsInAuto l)) ∧
      ((ResolveControlFlowStmtList ss loopOpt none).1 = none
        → noReturnsList ss = true) := by
  cases ss with
  | nil => rw [resolveList_nil]; exact ⟨rfl, by simp, fun _ => rfl⟩
  | cons s rest =>
    have hs := resolve_fdNone s loopOpt
    rcases hres : ResolveControlFlowStmt s loopOpt none with ⟨e1, s', fd1⟩
    rw [hres] at hs
    obtain ⟨hfd1, he1, hnr1⟩ := hs
    simp only at hfd1 he1 hnr1
    subst hfd1
    cases e1 with
    | some err =>
      have hstep : ResolveControlFlowStmtList (.cons s rest) loopOpt none
          = (some err, .cons s' rest, none) := by simp only [resolveList_cons, hres]
      rw [hstep]
      exact ⟨rfl, fun lx => he1 lx, by simp⟩
    | none =>
      have hr := resolveList_fdNone rest loopOpt
      rcases hres2 : ResolveControlFlowStmtList rest loopOpt none
        with ⟨e2, rest', fd2⟩
      rw [hres2] at hr
      obtain ⟨hfd2, he2, hnr2⟩ := hr
      simp only at hfd2 he2 hnr2
      subst hfd2
      have hstep : ResolveControlFlowStmtList (.cons s rest) loopOpt none
          = (e2, .cons s' rest', none) := by simp only [resolveList_cons, hres, hres2]
      rw [hstep]
      refine ⟨rfl, fun lx => he2 lx, fun hz => ?_⟩
      show (noReturns s && noReturnsList rest) = true
      have h1 := hnr1 rfl
      have h2 := hnr2 hz
      simp [h1, h2]
end

/- Derived forms of the `Return` case, split on the function's return term
and on the `saw_return_in_auto` flag. -/

theorem resolve_Return_auto_seen (l : Nat) (om : Bool) (f0 : Option Nat)
    (loopOpt : Option Nat) (f : FunctionDeclaration)
    (hf : f.return_term.is_auto = true) :
    ResolveControlFlowStmt (.Return l om f0) loopOpt (some ⟨f, true⟩)
      = (some (.multipleReturnsInAuto l), .Return l om f0, some ⟨f, true⟩) := by
  rw [resolve_Return_function]
  simp [hf]

theorem resolve_Return_auto_fresh (l : Nat) (om : Bool) (f0 : Option Nat)
    (loopOpt : Option Nat) (f : FunctionDeclaration)
    (hf : f.return_term.is_auto = true) :
    ResolveControlFlowStmt (.Return l om f0) loopOpt (some ⟨f, false⟩)
      = if om != f.return_term.is_omitted then
          (some (.presenceMismatch l f.return_term.is_omitted),
            .Return l om (some f.id), some ⟨f, true⟩)
        else
          (none, .Return l om (some f.id), some ⟨f, true⟩) := by
  rw [resolve_Return_function]
  simp [hf]

theorem resolve_Return_nonauto (l : Nat) (om : Bool) (f0 : Option Nat)
    (loopOpt : Option Nat) (f : FunctionDeclaration) (b : Bool)
    (hf : f.return_term.is_auto = false) :
    ResolveControlFlowStmt (.Return l om f0) loopOpt (some ⟨f, b⟩)
      = if om != f.return_term.is_omitted then
          (some (.presenceMismatch l f.return_term.is_omitted),
            .Return l om (some f.id), some ⟨f, b⟩)
        else
          (none, .Return l om (some f.id), some ⟨f, b⟩) := by
  rw [resolve_Return_function]
  simp [hf]

/- Helper lemmas about resolving inside a function with a deduced (`auto`)
return type.  A successful traversal starting with `saw_return_in_auto = b`
leaves the flag set exactly when a `Return` was seen (`b` already set, or
the subtree contains one), and can have visited at most one `Return`
(none at all when `b` was already set). -/
mutual
theorem resolve_auto_success (s : Stmt) (loopOpt : Option Nat)
    (f : FunctionDeclaration) (b : Bool) (s' : Stmt) (fd' : Option FunctionData)
    (hf : f.return_term.is_auto = true)
    (h : ResolveControlFlowStmt s loopOpt (some ⟨f, b⟩) = (none, s', fd')) :
    fd' = some ⟨f, b || !(returnLocs s).isEmpty⟩ ∧
      (returnLocs s).length + (if b then 1 else 0) ≤ 1 := by
  cases s with
  | Return l om f0 =>
    cases b with
    | true => rw [resolve_Return_auto_seen l om f0 loopOpt f hf] at h; simp at h
    | false =>
      rw [resolve_Return_auto_fresh l om f0 loopOpt f hf] at h
      split at h
      · simp at h
      · simp only [Prod.mk.injEq] at h
        obtain ⟨-, -, hfd⟩ := h
        exact ⟨by rw [← hfd]; simp [returnLocs], by simp [returnLocs]⟩
  | Break l lp0 =>
    cases loopOpt with
    | none => rw [resolve_Break_noLoop] at h; simp at h
    | some w =>
      rw [resolve_Break_loop] at h
      simp only [Prod.mk.injEq] at h
      obtain ⟨-, -, hfd⟩ := h
      exact ⟨by rw [← hfd]; simp [returnLocs],
        by cases b <;> simp [returnLocs]⟩
  | Continue l lp0 =>
    cases loopOpt with
    | none => rw [resolve_Continue_noLoop] at h; simp at h
    | some w =>
      rw [resolve_Continue_loop] at h
      simp only [Prod.mk.injEq] at h
      obtain ⟨-, -, hfd⟩ := h
      exact ⟨by rw [← hfd]; simp [returnLocs],
        by cases b <;> simp [returnLocs]⟩
  | If l t e =>
    rcases hres : ResolveControlFlowStmt t loopOpt (some ⟨f, b⟩) with ⟨e1, t', fd1⟩
    cases e1 with
    | some err => simp only [resolve_If, hres] at h; simp at h
    | none =>
      obtain ⟨hfd1, hlen1⟩ := resolve_auto_success t loopOpt f b t' fd1 hf hres
      subst hfd1
      rcases hres2 : ResolveControlFlowStmtOpt e loopOpt
          (some ⟨f, b || !(returnLocs t).isEmpty⟩) with ⟨e2, e', fd2⟩
      cases e2 with
      | some err2 => simp only [resolve_If, hres, hres2] at h; simp at h
      | none =>
        obtain ⟨hfd2, hlen2⟩ := resolveOpt_auto_success e loopOpt f
          (b || !(returnLocs t).isEmpty) e' fd2 hf hres2
        simp only [resolve_If, hres, hres2] at h
        simp only [Prod.mk.injEq] at h
        obtain ⟨-, -, hfd⟩ := h
        constructor
        · rw [← hfd, hfd2]
          simp only [returnLocs]
          rcases returnLocs t with _ | ⟨x, xs⟩ <;>
            rcases returnLocsOpt e with _ | ⟨y, ys⟩ <;>
            cases b <;> simp
        · simp only [returnLocs, List.length_append]
          rcases hte : returnLocs t with _ | ⟨x, xs⟩ <;>
            rcases hoe : returnLocsOpt e with _ | ⟨y, ys⟩ <;>
            rw [hte] at hlen1 <;> rw [hte, hoe] at hlen2 <;> cases b <;>
            simp_all
  | Block l ss =>
    rcases hres : ResolveControlFlowStmtList ss loopOpt (some ⟨f, b⟩)
      with ⟨e1, ss', fd1⟩
    cases e1 with
    | some err => simp only [resolve_Block, hres] at h; simp at h
    | none =>
      obtain ⟨hfd1, hlen1⟩ := resolveList_auto_success ss loopOpt f b ss' fd1 hf hres
      simp only [resolve_Block, hres] at h
      simp only [Prod.mk.injEq] at h
      obtain ⟨-, -, hfd⟩ := h
      exact ⟨by rw [← hfd, hfd1]; simp [returnLocs],
        by simpa [returnLocs] using hlen1⟩
  | While l b0 =>
    rcases hres : ResolveControlFlowStmt b0 (some l) (some ⟨f, b⟩)
      with ⟨e1, b0', fd1⟩
    cases e1 with
    | some err => simp only [resolve_While, hres] at h; simp at h
    | none =>
      obtain ⟨hfd1, hlen1⟩ := resolve_auto_success b0 (some l) f b b0' fd1 hf hres
      simp only [resolve_While, hres] at h
      simp only [Prod.mk.injEq] at h
      obtain ⟨-, -, hfd⟩ := h
      exact ⟨by rw [← hfd, hfd1]; simp [returnLocs],
        by simpa [returnLocs] using hlen1⟩
  | Match l cs =>
    rcases hres : ResolveControlFlowStmtList cs loopOpt (some ⟨f, b⟩)
      with ⟨e1, cs', fd1⟩
    cases e1 with
    | some err => simp only [resolve_Match, hres] at h; simp at h
    | none =>
      obtain ⟨hfd1, hlen1⟩ := resolveList_auto_success cs loopOpt f b cs' fd1 hf hres
      simp only [resolve_Match, hres] at h
      simp only [Prod.mk.injEq] at h
      obtain ⟨-, -, hfd⟩ := h
      exact ⟨by rw [← hfd, hfd1]; simp [returnLocs],
        by simpa [returnLocs] using hlen1⟩
  | Continuation l b0 =>
    rcases hres : ResolveControlFlowStmt b0 none none with ⟨e1, b0', fd1⟩
    simp only [resolve_Continuation, hres] at h
    simp only [Prod.mk.injEq] at h
    obtain ⟨-, -, hfd⟩ := h
    exact ⟨by rw [← hfd]; simp [returnLocs],
      by cases b <;> simp [returnLocs]⟩
  | ExpressionStatement l =>
    rw [resolve_ExpressionStatement] at h
    simp only [Prod.mk.injEq] at h
    obtain ⟨-, -, hfd⟩ := h
    exact ⟨by rw [← hfd]; simp [returnLocs], by cases b <;> simp [returnLocs]⟩
  | Assign l =>
    rw [resolve_Assign] at h
    simp only [Prod.mk.injEq] at h
    obtain ⟨-, -, hfd⟩ := h
    exact ⟨by rw [← hfd]; simp [returnLocs], by cases b <;> simp [returnLocs]⟩
  | VariableDefinition l =>
    rw [resolve_VariableDefinition] at h
    simp only [Prod.mk.injEq] at h
    obtain ⟨-, -, hfd⟩ := h
    exact ⟨by rw [← hfd]; simp [returnLocs], by cases b <;> simp [returnLocs]⟩
  | Run l =>
    rw [resolve_Run] at h
    simp only [Prod.mk.injEq] at h
    obtain ⟨-, -, hfd⟩ := h
    exact ⟨by rw [← hfd]; simp [returnLocs], by cases b <;> simp [returnLocs]⟩
  | Await l =>
    rw [resolve_Await] at h
    simp only [Prod.mk.injEq] at h
    obtain ⟨-, -, hfd⟩ := h
    exact ⟨by rw [← hfd]; simp [returnLocs], by cases b <;> simp [returnLocs]⟩

theorem resolveOpt_auto_success (o : OptStmt) (loopOpt : Option Nat)
    (f : FunctionDeclaration) (b : Bool) (o' : OptStmt) (fd' : Option FunctionData)
    (hf : f.return_term.is_auto = true)
    (h : ResolveControlFlowStmtOpt o loopOpt (some ⟨f, b⟩) = (none, o', fd')) :
    fd' = some ⟨f, b || !(returnLocsOpt o).isEmpty⟩ ∧
      (returnLocsOpt o).length + (if b then 1 else 0) ≤ 1 := by
  cases o with
  | none =>
    rw [resolveOpt_none] at h
    simp only [Prod.mk.injEq] at h
    obtain ⟨-, -, hfd⟩ := h
    exact ⟨by rw [← hfd]; simp [returnLocsOpt],
      by cases b <;> simp [returnLocsOpt]⟩
  | some s =>
    rcases hres : ResolveControlFlowStmt s loopOpt (some ⟨f, b⟩) with ⟨e1, s', fd1⟩
    cases e1 with
    | some err => simp only [resolveOpt_some, hres] at h; simp at h
    | none =>
      obtain ⟨hfd1, hlen1⟩ := resolve_auto_success s loopOpt f b s' fd1 hf hres
      simp only [resolveOpt_some, hres] at h
      simp only [Prod.mk.injEq] at h
      obtain ⟨-, -, hfd⟩ := h
      exact ⟨by rw [← hfd, hfd1]; simp [returnLocsOpt],
        by simpa [returnLocsOpt] using hlen1⟩

theorem resolveList_auto_success (ss : StmtList) (loopOpt : Option Nat)
    (f : FunctionDeclaration) (b : Bool) (ss' : StmtList) (fd' : Option FunctionData)
    (hf : f.return_term.is_auto = true)
    (h : ResolveControlFlowStmtList ss loopOpt (some ⟨f, b⟩) = (none, ss', fd')) :
    fd' = some ⟨f, b || !(returnLocsList ss).isEmpty⟩ ∧
      (returnLocsList ss).length + (if b then 1 else 0) ≤ 1 := by
  cases ss with
  | nil =>
    rw [resolveList_nil] at h
    simp only [Prod.mk.injEq] at h
    obtain ⟨-, -, hfd⟩ := h
    exact ⟨by rw [← hfd]; simp [returnLocsList],
      by cases b <;> simp [returnLocsList]⟩
  | cons s rest =>
    rcases hres : ResolveControlFlowStmt s loopOpt (some ⟨f, b⟩) with ⟨e1, s', fd1⟩
    cases e1 with
    | some err => simp only [resolveList_cons, hres] at h; simp at h
    | none =>
      obtain ⟨hfd1, hlen1⟩ := resolve_auto_success s loopOpt f b s' fd1 hf hres
      subst hfd1
      rcases hres2 : ResolveControlFlowStmtList rest loopOpt
          (some ⟨f, b || !(returnLocs s).isEmpty⟩) with ⟨e2, rest', fd2⟩
      cases e2 with
      | some err2 => simp only [resolveList_cons, hres, hres2] at h; simp at h
      | none =>
        obtain ⟨hfd2, hlen2⟩ := resolveList_auto_success rest loopOpt f
          (b || !(returnLocs s).isEmpty) rest' fd2 hf hres2
        simp only [resolveList_cons, hres, hres2] at h
        simp only [Prod.mk.injEq] at h
        obtain ⟨-, -, hfd⟩ := h
        constructor
        · rw [← hfd, hfd2]
          simp only [returnLocsList]
          rcases returnLocs s with _ | ⟨x, xs⟩ <;>
            rcases returnLocsList rest with _ | ⟨y, ys⟩ <;>
            cases b <;> simp
        · simp only [returnLocsList, List.length_append]
          rcases hte : returnLocs s with _ | ⟨x, xs⟩ <;>
            rcases hoe : returnLocsList rest with _ | ⟨y, ys⟩ <;>
            rw [hte] at hlen1 <;> rw [hte, hoe] at hlen2 <;> cases b <;>
            simp_all
end

/- Helper lemmas locating the auto-return diagnostic: inside an `auto`
function, when the traversal fails with the multiple-returns error, the
reported location is that of the first lexical `Return` when the
`saw_return_in_auto` flag was already set on entry, and that of the second
lexical `Return` when it was clear. -/
mutual
theorem resolve_auto_multi (s : Stmt) (loopOpt : Option Nat)
    (f : FunctionDeclaration) (b : Bool) (l : Nat) (s' : Stmt)
    (fd' : Option FunctionData) (hf : f.return_term.is_auto = true)
    (h : ResolveControlFlowStmt s loopOpt (some ⟨f, b⟩)
      = (some (.multipleReturnsInAuto l), s', fd')) :
    (returnLocs s).get? (if b then 0 else 1) = some l := by
  cases s with
  | Return l0 om f0 =>
    cases b with
    | true =>
      rw [resolve_Return_auto_seen l0 om f0 loopOpt f hf] at h
      simp only [Prod.mk.injEq] at h
      obtain ⟨he, -, -⟩ := h
      simp only [Option.some.injEq, CFError.multipleReturnsInAuto.injEq] at he
      simp [returnLocs, he]
    | false =>
      rw [resolve_Return_auto_fresh l0 om f0 loopOpt f hf] at h
      split at h <;> simp at h
  | Break l0 lp0 =>
    cases loopOpt with
    | none => rw [resolve_Break_noLoop] at h; simp at h
    | some w => rw [resolve_Break_loop] at h; simp at h
  | Continue l0 lp0 =>
    cases loopOpt with
    | none => rw [resolve_Continue_noLoop] at h; simp at h
    | some w => rw [resolve_Continue_loop] at h; simp at h
  | If l0 t e =>
    rcases hres : ResolveControlFlowStmt t loopOpt (some ⟨f, b⟩) with ⟨e1, t', fd1⟩
    cases e1 with
    | some err =>
      simp only [resolve_If, hres] at h
      simp only [Prod.mk.injEq] at h
      obtain ⟨he, -, -⟩ := h
      simp only [Option.some.injEq] at he
      subst he
      have ih := resolve_auto_multi t loopOpt f b l t' fd1 hf hres
      have hlt : (if b then 0 else 1) < (returnLocs t).length :=
        (List.get?_eq_some.mp ih).1
      simp only [returnLocs]
      rw [List.get?_append hlt]
      exact ih
    | none =>
      obtain ⟨hfd1, hlen1⟩ := resolve_auto_success t loopOpt f b t' fd1 hf hres
      subst hfd1
      rcases hres2 : ResolveControlFlowStmtOpt e loopOpt
          (some ⟨f, b || !(returnLocs t).isEmpty⟩) with ⟨e2, e', fd2⟩
      cases e2 with
      | none => simp only [resolve_If, hres, hres2] at h; simp at h
      | some err2 =>
        simp only [resolve_If, hres, hres2] at h
        simp only [Prod.mk.injEq] at h
        obtain ⟨he, -, -⟩ := h
        simp only [Option.some.injEq] at he
        subst he
        have ih2 := resolveOpt_auto_multi e loopOpt f
          (b || !(returnLocs t).isEmpty) l e' fd2 hf hres2
        cases b with
        | true =>
          have hxs : returnLocs t = [] := by
            rcases hxe : returnLocs t with _ | ⟨x, xs⟩
            · rfl
            · rw [hxe] at hlen1; simp at hlen1
          rw [hxs] at ih2
          simp only [returnLocs, hxs, List.nil_append]
          simpa using ih2
        | false =>
          rcases hxe : returnLocs t with _ | ⟨x, xs⟩
          · rw [hxe] at ih2
            simp only [List.isEmpty_nil, Bool.not_true, Bool.or_false,
              if_false] at ih2
            simp only [returnLocs, hxe, List.nil_append]
            simpa using ih2
          · rw [hxe] at hlen1
            have hx0 : xs = [] := by
              simp only [List.length_cons] at hlen1
              have : xs.length = 0 := by omega
              exact List.length_eq_zero.mp this
            subst hx0
            rw [hxe] at ih2
            simp only [List.isEmpty_cons, Bool.not_false, Bool.or_true,
              if_true] at ih2
            simp only [returnLocs, hxe, List.cons_append, List.nil_append]
            simpa using ih2
  | Block l0 ss =>
    rcases hres : ResolveControlFlowStmtList ss loopOpt (some ⟨f, b⟩)
      with ⟨e1, ss', fd1⟩
    cases e1 with
    | some err =>
      simp only [resolve_Block, hres] at h
      simp only [Prod.mk.injEq] at h
      obtain ⟨he, -, -⟩ := h
      simp only [Option.some.injEq] at he
      subst he
      have ih := resolveList_auto_multi ss loopOpt f b l ss' fd1 hf hres
      simpa [returnLocs] using ih
    | none => simp only [resolve_Block, hres] at h; simp at h
  | While l0 b0 =>
    rcases hres : ResolveControlFlowStmt b0 (some l0) (some ⟨f, b⟩)
      with ⟨e1, b0', fd1⟩
    cases e1 with
    | some err =>
      simp only [resolve_While, hres] at h
      simp only [Prod.mk.injEq] at h
      obtain ⟨he, -, -⟩ := h
      simp only [Option.some.injEq] at he
      subst he
      have ih := resolve_auto_multi b0 (some l0) f b l b0' fd1 hf hres
      simpa [returnLocs] using ih
    | none => simp only [resolve_While, hres] at h; simp at h
  | Match l0 cs =>
    rcases hres : ResolveControlFlowStmtList cs loopOpt (some ⟨f, b⟩)
      with ⟨e1, cs', fd1⟩
    cases e1 with
    | some err =>
      simp only [resolve_Match, hres] at h
      simp only [Prod.mk.injEq] at h
      obtain ⟨he, -, -⟩ := h
      simp only [Option.some.injEq] at he
      subst he
      have ih := resolveList_auto_multi cs loopOpt f b l cs' fd1 hf hres
      simpa [returnLocs] using ih
    | none => simp only [resolve_Match, hres] at h; simp at h
  | Continuation l0 b0 =>
    rcases hres : ResolveControlFlowStmt b0 none none with ⟨e1, b0', fd1⟩
    simp only [resolve_Continuation, hres] at h
    simp only [Prod.mk.injEq] at h
    obtain ⟨he, -, -⟩ := h
    have hne := (resolve_fdNone b0 none).2.1 l
    rw [hres] at hne
    exact absurd he hne
  | ExpressionStatement l0 => rw [resolve_ExpressionStatement] at h; simp at h
  | Assign l0 => rw [resolve_Assign] at h; simp at h
  | VariableDefinition l0 => rw [resolve_VariableDefinition] at h; simp at h
  | Run l0 => rw [resolve_Run] at h; simp at h
  | Await l0 => rw [resolve_Await] at h; simp at h

theorem resolveOpt_auto_multi (o : OptStmt) (loopOpt : Option Nat)
    (f : FunctionDeclaration) (b : Bool) (l : Nat) (o' : OptStmt)
    (fd' : Option FunctionData) (hf : f.return_term.is_auto = true)
    (h : ResolveControlFlowStmtOpt o loopOpt (some ⟨f, b⟩)
      = (some (.multipleReturnsInAuto l), o', fd')) :
    (returnLocsOpt o).get? (if b then 0 else 1) = some l := by
  cases o with
  | none => rw [resolveOpt_none] at h; simp at h
  | some s =>
    rcases hres : ResolveControlFlowStmt s loopOpt (some ⟨f, b⟩) with ⟨e1, s', fd1⟩
    cases e1 with
    | some err =>
      simp only [resolveOpt_some, hres] at h
      simp only [Prod.mk.injEq] at h
      obtain ⟨he, -, -⟩ := h
      simp only [Option.some.injEq] at he
      subst he
      have ih := resolve_auto_multi s loopOpt f b l s' fd1 hf hres
      simpa [returnLocsOpt] using ih
    | none => simp only [resolveOpt_some, hres] at h; simp at h

theorem resolveList_auto_multi (ss : StmtList) (loopOpt : Option Nat)
    (f : FunctionDeclaration) (b : Bool) (l : Nat) (ss' : StmtList)
    (fd' : Option FunctionData) (hf : f.return_term.is_auto = true)
    (h : ResolveControlFlowStmtList ss loopOpt (some ⟨f, b⟩)
      = (some (.multipleReturnsInAuto l), ss', fd')) :
    (returnLocsList ss).get? (if b then 0 else 1) = some l := by
  cases ss with
  | nil => rw [resolveList_nil] at h; simp at h
  | cons s rest =>
    rcases hres : ResolveControlFlowStmt s loopOpt (some ⟨f, b⟩) with ⟨e1, s', fd1⟩
    cases e1 with
    | some err =>
      simp only [resolveList_cons, hres] at h
      simp only [Prod.mk.injEq] at h
      obtain ⟨he, -, -⟩ := h
      simp only [Option.some.injEq] at he
      subst he
      have ih := resolve_auto_multi s loopOpt f b l s' fd1 hf hres
      have hlt : (if b then 0 else 1) < (returnLocs s).length :=
        (List.get?_eq_some.mp ih).1
      simp only [returnLocsList]
      rw [List.get?_append hlt]
      exact ih
    | none =>
      obtain ⟨hfd1, hlen1⟩ := resolve_auto_success s loopOpt f b s' fd1 hf hres
      subst hfd1
      rcases hres2 : ResolveControlFlowStmtList rest loopOpt
          (some ⟨f, b || !(returnLocs s).isEmpty⟩) with ⟨e2, rest', fd2⟩
      cases e2 with
      | none => simp only [resolveList_cons, hres, hres2] at h; simp at h
      | some err2 =>
        simp only [resolveList_cons, hres, hres2] at h
        simp only [Prod.mk.injEq] at h
        obtain ⟨he, -, -⟩ := h
        simp only [Option.some.injEq] at he
        subst he
        have ih2 := resolveList_auto_multi rest loopOpt f
          (b || !(returnLocs s).isEmpty) l rest' fd2 hf hres2
        cases b with
        | true =>
          have hxs : returnLocs s = [] := by
            rcases hxe : returnLocs s with _ | ⟨x, xs⟩
            · rfl
            · rw [hxe] at hlen1; simp at hlen1
          rw [hxs] at ih2
          simp only [returnLocsList, hxs, List.nil_append]
          simpa using ih2
        | false =>
          rcases hxe : returnLocs s with _ | ⟨x, xs⟩
          · rw [hxe] at ih2
            simp only [List.isEmpty_nil, Bool.not_true, Bool.or_false,
              if_false] at ih2
            simp only [returnLocsList, hxe, List.nil_append]
            simpa using ih2
          · rw [hxe] at hlen1
            have hx0 : xs = [] := by
              simp only [List.length_cons] at hlen1
              have : xs.length = 0 := by omega
              exact List.length_eq_zero.mp this
            subst hx0
            rw [hxe] at ih2
            simp only [List.isEmpty_cons, Bool.not_false, Bool.or_true,
              if_true] at ih2
            simp only [returnLocsList, hxe, List.cons_append, List.nil_append]
            simpa using ih2
end

/- Helper lemmas for diagnostic-free runs: under the input-side conditions
of `resolvesCleanly` (and a non-`auto` contract, so the auto-return
restriction is vacuous), resolution succeeds, leaves the function context
exactly as it was, and binds every `Return` to the context function. -/
mutual
theorem resolve_clean (s : Stmt) (loopOpt : Option Nat)
    (fdOpt : Option FunctionData)
    (hauto : ∀ d : FunctionData, fdOpt = some d
      → d.declaration.return_term.is_auto = false)
    (hc : resolvesCleanly s loopOpt.isSome
        (fdOpt.map fun d => d.declaration.return_term) = true) :
    ∃ s', ResolveControlFlowStmt s loopOpt fdOpt = (none, s', fdOpt) ∧
      ∀ fid, (∀ d : FunctionData, fdOpt = some d → fid = d.declaration.id)
        → returnsBoundTo s' fid = true := by
  cases s with
  | Return l om f0 =>
    cases fdOpt with
    | none => simp [resolvesCleanly] at hc
    | some d =>
      obtain ⟨f, b⟩ := d
      have hf : f.return_term.is_auto = false := hauto ⟨f, b⟩ rfl
      simp only [Option.map_some', resolvesCleanly, beq_iff_eq] at hc
      refine ⟨.Return l om (some f.id), ?_, ?_⟩
      · rw [resolve_Return_nonauto l om f0 loopOpt f b hf]
        simp [hc]
      · intro fid hfid
        have hid : fid = f.id := hfid ⟨f, b⟩ rfl
        simp [returnsBoundTo, hid]
  | Break l lp0 =>
    simp only [resolvesCleanly] at hc
    cases loopOpt with
    | none => simp at hc
    | some w =>
      exact ⟨.Break l (some w), resolve_Break_loop l lp0 w fdOpt,
        fun fid _ => by simp [returnsBoundTo]⟩
  | Continue l lp0 =>
    simp only [resolvesCleanly] at hc
    cases loopOpt with
    | none => simp at hc
    | some w =>
      exact ⟨.Continue l (some w), resolve_Continue_loop l lp0 w fdOpt,
        fun fid _ => by simp [returnsBoundTo]⟩
  | If l t e =>
    simp only [resolvesCleanly, Bool.and_eq_true] at hc
    obtain ⟨hct, hce⟩ := hc
    obtain ⟨t', hres1, hb1⟩ := resolve_clean t loopOpt fdOpt hauto hct
    obtain ⟨e', hres2, hb2⟩ := resolveOpt_clean e loopOpt fdOpt hauto hce
    refine ⟨.If l t' e', ?_, ?_⟩
    · simp only [resolve_If, hres1, hres2]
    · intro fid hfid
      simp only [returnsBoundTo, Bool.and_eq_true]
      exact ⟨hb1 fid hfid, hb2 fid hfid⟩
  | Block l ss =>
    simp only [resolvesCleanly] at hc
    obtain ⟨ss', hres, hb⟩ := resolveList_clean ss loopOpt fdOpt hauto hc
    refine ⟨.Block l ss', ?_, ?_⟩
    · simp only [resolve_Block, hres]
    · intro fid hfid
      simp only [returnsBoundTo]
      exact hb fid hfid
  | While l b0 =>
    simp only [resolvesCleanly] at hc
    obtain ⟨b0', hres, hb⟩ := resolve_clean b0 (some l) fdOpt hauto (by simpa using hc)
    refine ⟨.While l b0', ?_, ?_⟩
    · simp only [resolve_While, hres]
    · intro fid hfid
      simp only [returnsBoundTo]
      exact hb fid hfid
  | Match l cs =>
    simp only [resolvesCleanly] at hc
    obtain ⟨cs', hres, hb⟩ := resolveList_clean cs loopOpt fdOpt hauto hc
    refine ⟨.Match l cs', ?_, ?_⟩
    · simp only [resolve_Match, hres]
    · intro fid hfid
      simp only [returnsBoundTo]
      exact hb fid hfid
  | Continuation l b0 =>
    simp only [resolvesCleanly] at hc
    obtain ⟨b0', hres, hb⟩ := resolve_clean b0 none none
      (fun d hd => Option.noConfusion hd) (by simpa using hc)
    refine ⟨.Continuation l b0', ?_, ?_⟩
    · simp only [resolve_Continuation, hres]
    · intro fid hfid
      simp only [returnsBoundTo]
      exact hb fid (fun d hd => Option.noConfusion hd)
  | ExpressionStatement l =>
    exact ⟨.ExpressionStatement l, resolve_ExpressionStatement l loopOpt fdOpt,
      fun fid _ => by simp [returnsBoundTo]⟩
  | Assign l =>
    exact ⟨.Assign l, resolve_Assign l loopOpt fdOpt,
      fun fid _ => by simp [returnsBoundTo]⟩
  | VariableDefinition l =>
    exact ⟨.VariableDefinition l, resolve_VariableDefinition l loopOpt fdOpt,
      fun fid _ => by simp [returnsBoundTo]⟩
  | Run l =>
    exact ⟨.Run l, resolve_Run l loopOpt fdOpt,
      fun fid _ => by simp [returnsBoundTo]⟩
  | Await l =>
    exact ⟨.Await l, resolve_Await l loopOpt fdOpt,
      fun fid _ => by simp [returnsBoundTo]⟩

theorem resolveOpt_clean (o : OptStmt) (loopOpt : Option Nat)
    (fdOpt : Option FunctionData)
    (hauto : ∀ d : FunctionData, fdOpt = some d
      → d.declaration.return_term.is_auto = false)
    (hc : resolvesCleanlyOpt o loopOpt.isSome
        (fdOpt.map fun d => d.declaration.return_term) = true) :
    ∃ o', ResolveControlFlowStmtOpt o loopOpt fdOpt = (none, o', fdOpt) ∧
      ∀ fid, (∀ d : FunctionData, fdOpt = some d → fid = d.declaration.id)
        → returnsBoundToOpt o' fid = true := by
  cases o with
  | none =>
    exact ⟨.none, resolveOpt_none loopOpt fdOpt,
      fun fid _ => by simp [returnsBoundToOpt]⟩
  | some s =>
    simp only [resolvesCleanlyOpt] at hc
    obtain ⟨s', hres, hb⟩ := resolve_clean s loopOpt fdOpt hauto hc
    refine ⟨.some s', ?_, ?_⟩
    · simp only [resolveOpt_some, hres]
    · intro fid hfid
      simp only [returnsBoundToOpt]
      exact hb fid hfid

theorem resolveList_clean (ss : StmtList) (loopOpt : Option Nat)
    (fdOpt : Option FunctionData)
    (hauto : ∀ d : FunctionData, fdOpt = some d
      → d.declaration.return_term.is_auto = false)
    (hc : resolvesCleanlyList ss loopOpt.isSome
        (fdOpt.map fun d => d.declaration.return_term) = true) :
    ∃ ss', ResolveControlFlowStmtList ss loopOpt fdOpt = (none, ss', fdOpt) ∧
      ∀ fid, (∀ d : FunctionData, fdOpt = some d → fid = d.declaration.id)
        → returnsBoundToList ss' fid = true := by
  cases ss with
  | nil =>
    exact ⟨.nil, resolveList_nil loopOpt fdOpt,
      fun fid _ => by simp [returnsBoundToList]⟩
  | cons s rest =>
    simp only [resolvesCleanlyList, Bool.and_eq_true] at hc
    obtain ⟨hcs, hcr⟩ := hc
    obtain ⟨s', hres1, hb1⟩ := resolve_clean s loopOpt fdOpt hauto hcs
    obtain ⟨rest', hres2, hb2⟩ := resolveList_clean rest loopOpt fdOpt hauto hcr
    refine ⟨.cons s' rest', ?_, ?_⟩
    · simp only [resolveList_cons, hres1, hres2]
    · intro fid hfid
      simp only [returnsBoundToList, Bool.and_eq_true]
      exact ⟨hb1 fid hfid, hb2 fid hfid⟩
end

/- Step equations for the fuel-bounded resolver. -/

theorem resolveF_zero (s : Stmt) (loopOpt : Option Nat)
    (fdOpt : Option FunctionData) :
    ResolveControlFlowStmtF 0 s loopOpt fdOpt = none := rfl

theorem resolveF_If (fuel : Nat) (l : Nat) (thenB : Stmt) (elseB : OptStmt)
    (loopOpt : Option Nat) (fdOpt : Option FunctionData) :
    ResolveControlFlowStmtF (fuel + 1) (.If l thenB elseB) loopOpt fdOpt
      = match ResolveControlFlowStmtF fuel thenB loopOpt fdOpt with
        | Option.none => none
        | Option.some (some e, thenB', fd1) =>
          some (some e, .If l thenB' elseB, fd1)
        | Option.some (none, thenB', fd1) =>
          match ResolveControlFlowStmtOptF fuel elseB loopOpt fd1 with
          | Option.none => none
          | Option.some (e2, elseB', fd2) =>
            some (e2, .If l thenB' elseB', fd2) := rfl

theorem resolveF_Block (fuel : Nat) (l : Nat) (ss : StmtList)
    (loopOpt : Option Nat) (fdOpt : Option FunctionData) :
    ResolveControlFlowStmtF (fuel + 1) (.Block l ss) loopOpt fdOpt
      = match ResolveControlFlowStmtListF fuel ss loopOpt fdOpt with
        | Option.none => none
        | Option.some (e, ss', fd') => some (e, .Block l ss', fd') := rfl

theorem resolveF_While (fuel : Nat) (l : Nat) (body : Stmt)
    (loopOpt : Option Nat) (fdOpt : Option FunctionData) :
    ResolveControlFlowStmtF (fuel + 1) (.While l body) loopOpt fdOpt
      = match ResolveControlFlowStmtF fuel body (some l) fdOpt with
        | Option.none => none
        | Option.some (e, body', fd') => some (e, .While l body', fd') := rfl

theorem resolveF_Match (fuel : Nat) (l : Nat) (cs : StmtList)
    (loopOpt : Option Nat) (fdOpt : Option FunctionData) :
    ResolveControlFlowStmtF (fuel + 1) (.Match l cs) loopOpt fdOpt
      = match ResolveControlFlowStmtListF fuel cs loopOpt fdOpt with
        | Option.none => none
        | Option.some (e, cs', fd') => some (e, .Match l cs', fd') := rfl

theorem resolveF_Continuation (fuel : Nat) (l : Nat) (body : Stmt)
    (loopOpt : Option Nat) (fdOpt : Option FunctionData) :
    ResolveControlFlowStmtF (fuel + 1) (.Continuation l body) loopOpt fdOpt
      = match ResolveControlFlowStmtF fuel body none none with
        | Option.none => none
        | Option.some (e, body', _) =>
          some (e, .Continuation l body', fdOpt) := rfl

theorem resolveOptF_some (fuel : Nat) (s : Stmt) (loopOpt : Option Nat)
    (fdOpt : Option FunctionData) :
    ResolveControlFlowStmtOptF (fuel + 1) (.some s) loopOpt fdOpt
      = match ResolveControlFlowStmtF fuel s loopOpt fdOpt with
        | Option.none => none
        | Option.some (e, s', fd') => some (e, .some s', fd') := rfl

theorem resolveListF_cons (fuel : Nat) (s : Stmt) (rest : StmtList)
    (loopOpt : Option Nat) (fdOpt : Option FunctionData) :
    ResolveControlFlowStmtListF (fuel + 1) (.cons s rest) loopOpt fdOpt
      = match ResolveControlFlowStmtF fuel s loopOpt fdOpt with
        | Option.none => none
        | Option.some (some e, s', fd') => some (some e, .cons s' rest, fd')
        | Option.some (none, s', fd') =>
          match ResolveControlFlowStmtListF fuel rest loopOpt fd' with
          | Option.none => none
          | Option.some (e2, rest', fd2) => some (e2, .cons s' rest', fd2) := rfl

/- Fuel adequacy: with fuel at least the size of the tree, the fuel-bounded
resolver computes exactly what `ResolveControlFlowStmt` computes; since the
size of every recursive call's argument is strictly smaller than the
caller's, this bounds the recursion depth of the pass by the tree size. -/
mutual
theorem resolveF_adequate (s : Stmt) :
    ∀ (fuel : Nat) (loopOpt : Option Nat) (fdOpt : Option FunctionData),
      Stmt.size s ≤ fuel →
      ResolveControlFlowStmtF fuel s loopOpt fdOpt
        = some (ResolveControlFlowStmt s loopOpt fdOpt) := by
  cases s with
  | Return l om f0 =>
    intro fuel loopOpt fdOpt hs
    cases fuel with
    | zero => simp [Stmt.size] at hs
    | succ k => rfl
  | Break l lp0 =>
    intro fuel loopOpt fdOpt hs
    cases fuel with
    | zero => simp [Stmt.size] at hs
    | succ k => rfl
  | Continue l lp0 =>
    intro fuel loopOpt fdOpt hs
    cases fuel with
    | zero => simp [Stmt.size] at hs
    | succ k => rfl
  | If l t e =>
    intro fuel loopOpt fdOpt hs
    cases fuel with
    | zero => simp [Stmt.size] at hs
    | succ k =>
      simp only [Stmt.size] at hs
      have hk1 : Stmt.size t ≤ k := by omega
      have hk2 : OptStmt.size e ≤ k := by omega
      rw [resolveF_If, resolveF_adequate t k loopOpt fdOpt hk1]
      rcases hres : ResolveControlFlowStmt t loopOpt fdOpt with ⟨e1, t', fd1⟩
      cases e1 with
      | some err => simp only [resolve_If, hres]
      | none =>
        rcases hres2 : ResolveControlFlowStmtOpt e loopOpt fd1 with ⟨e2, e', fd2⟩
        simp only [resolveOptF_adequate e k loopOpt fd1 hk2, hres2,
          resolve_If, hres]
  | Block l ss =>
    intro fuel loopOpt fdOpt hs
    cases fuel with
    | zero => simp [Stmt.size] at hs
    | succ k =>
      simp only [Stmt.size] at hs
      have hk : StmtList.size ss ≤ k := by omega
      rw [resolveF_Block, resolveListF_adequate ss k loopOpt fdOpt hk]
      rcases hres : ResolveControlFlowStmtList ss loopOpt fdOpt with ⟨e1, ss', fd1⟩
      simp only [resolve_Block, hres]
  | While l b0 =>
    intro fuel loopOpt fdOpt hs
    cases fuel with
    | zero => simp [Stmt.size] at hs
    | succ k =>
      simp only [Stmt.size] at hs
      have hk : Stmt.size b0 ≤ k := by omega
      rw [resolveF_While, resolveF_adequate b0 k (some l) fdOpt hk]
      rcases hres : ResolveControlFlowStmt b0 (some l) fdOpt with ⟨e1, b0', fd1⟩
      simp only [resolve_While, hres]
  | Match l cs =>
    intro fuel loopOpt fdOpt hs
    cases fuel with
    | zero => simp [Stmt.size] at hs
    | succ k =>
      simp only [Stmt.size] at hs
      have hk : StmtList.size cs ≤ k := by omega
      rw [resolveF_Match, resolveListF_adequate cs k loopOpt fdOpt hk]
      rcases hres : ResolveControlFlowStmtList cs loopOpt fdOpt with ⟨e1, cs', fd1⟩
      simp only [resolve_Match, hres]
  | Continuation l b0 =>
    intro fuel loopOpt fdOpt hs
    cases fuel with
    | zero => simp [Stmt.size] at hs
    | succ k =>
      simp only [Stmt.size] at hs
      have hk : Stmt.size b0 ≤ k := by omega
      rw [resolveF_Continuation, resolveF_adequate b0 k none none hk]
      rcases hres : ResolveControlFlowStmt b0 none none with ⟨e1, b0', fd1⟩
      simp only [resolve_Continuation, hres]
  | ExpressionStatement l =>
    intro fuel loopOpt fdOpt hs
    cases fuel with
    | zero => simp [Stmt.size] at hs
    | succ k => rfl
  | Assign l =>
    intro fuel loopOpt fdOpt hs
    cases fuel with
    | zero => simp [Stmt.size] at hs
    | succ k => rfl
  | VariableDefinition l =>
    intro fuel loopOpt fdOpt hs
    cases fuel with
    | zero => simp [Stmt.size] at hs
    | succ k => rfl
  | Run l =>
    intro fuel loopOpt fdOpt hs
    cases fuel with
    | zero => simp [Stmt.size] at hs
    | succ k => rfl
  | Await l =>
    intro fuel loopOpt fdOpt hs
    cases fuel with
    | zero => simp [Stmt.size] at hs
    | succ k => rfl

theorem resolveOptF_adequate (o : OptStmt) :
    ∀ (fuel : Nat) (loopOpt : Option Nat) (fdOpt : Option FunctionData),
      OptStmt.size o ≤ fuel →
      ResolveControlFlowStmtOptF fuel o loopOpt fdOpt
        = some (ResolveControlFlowStmtOpt o loopOpt fdOpt) := by
  cases o with
  | none =>
    intro fuel loopOpt fdOpt hs
    cases fuel with
    | zero => simp [OptStmt.size] at hs
    | succ k => rfl
  | some s =>
    intro fuel loopOpt fdOpt hs
    cases fuel with
    | zero => simp [OptStmt.size] at hs
    | succ k =>
      simp only [OptStmt.size] at hs
      have hk : Stmt.size s ≤ k := by omega
      rw [resolveOptF_some, resolveF_adequate s k loopOpt fdOpt hk]
      rcases hres : ResolveControlFlowStmt s loopOpt fdOpt with ⟨e1, s', fd1⟩
      simp only [resolveOpt_some, hres]

theorem resolveListF_adequate (ss : StmtList) :
    ∀ (fuel : Nat) (loopOpt : Option Nat) (fdOpt : Option FunctionData),
      StmtList.size ss ≤ fuel →
      ResolveControlFlowStmtListF fuel ss loopOpt fdOpt
        = some (ResolveControlFlowStmtList ss loopOpt fdOpt) := by
  cases ss with
  | nil =>
    intro fuel loopOpt fdOpt hs
    cases fuel with
    | zero => simp [StmtList.size] at hs
    | succ k => rfl
  | cons s rest =>
    intro fuel loopOpt fdOpt hs
    cases fuel with
    | zero => simp [StmtList.size] at hs
    | succ k =>
      simp only [StmtList.size] at hs
      have hk1 : Stmt.size s ≤ k := by omega
      have hk2 : StmtList.size rest ≤ k := by omega
      rw [resolveListF_cons, resolveF_adequate s k loopOpt fdOpt hk1]
      rcases hres : ResolveControlFlowStmt s loopOpt fdOpt with ⟨e1, s', fd1⟩
      cases e1 with
      | some err => simp only [resolveList_cons, hres]
      | none =>
        rcases hres2 : ResolveControlFlowStmtList rest loopOpt fd1
          with ⟨e2, rest', fd2⟩
        simp only [resolveListF_adequate rest k loopOpt fd1 hk2, hres2,
          resolveList_cons, hres]
end

/- Step equations for the declaration-level resolver. -/

theorem resolveDecl_function (f : FunctionDeclaration) :
    ResolveControlFlowDecl (.functionDecl f)
      = match f.body with
        | .none => (none, .functionDecl f)
        | .some b =>
          match ResolveControlFlowStmt b none (some ⟨f, false⟩) with
          | (e, b', _) => (e, .functionDecl ⟨f.id, f.return_term, .some b'⟩) := rfl

theorem resolveDecl_function_noBody (i : Nat) (rt : ReturnTerm) :
    ResolveControlFlowDecl (.functionDecl ⟨i, rt, .none⟩)
      = (none, .functionDecl ⟨i, rt, .none⟩) := rfl

theorem resolveDecl_function_body (i : Nat) (rt : ReturnTerm) (b : Stmt) :
    ResolveControlFlowDecl (.functionDecl ⟨i, rt, .some b⟩)
      = match ResolveControlFlowStmt b none (some ⟨⟨i, rt, .some b⟩, false⟩) with
        | (e, b', _) => (e, .functionDecl ⟨i, rt, .some b'⟩) := rfl

theorem resolveDecl_class (i : Nat) (members : DeclarationList) :
    ResolveControlFlowDecl (.classDecl i members)
      = match ResolveControlFlowDeclList members with
        | (e, members') => (e, .classDecl i members') := rfl

theorem resolveDecl_other (i : Nat) :
    ResolveControlFlowDecl (.otherDecl i) = (none, .otherDecl i) := rfl

theorem resolveDeclList_nil :
    ResolveControlFlowDeclList .nil = (none, .nil) := rfl

theorem resolveDeclList_cons (d : Declaration) (rest : DeclarationList) :
    ResolveControlFlowDeclList (.cons d rest)
      = match ResolveControlFlowDecl d with
        | (some e, d') => (some e, .cons d' rest)
        | (none, d') =>
          match ResolveControlFlowDeclList rest with
          | (e, rest') => (e, .cons d' rest') := rfl

/-- C2: Break and Continue resolution binds to the innermost lexically
enclosing loop.  A `While` resolves its body with the loop context replaced
by that `While` node (function context unchanged); in two nested `While`s a
`Break` in the inner body binds to the inner loop, not the outer; a `Break`
(resp. `Continue`) with no enclosing loop — regardless of other nesting —
fails with exactly the message "break is not within a loop body" (resp.
"continue is not within a loop body") at that statement's own source
location. -/
theorem C2_break_continue_innermost_loop :
    (∀ (l : Nat) (body : Stmt) (loopOpt : Option Nat)
        (fdOpt : Option FunctionData),
      ResolveControlFlowStmt (.While l body) loopOpt fdOpt
        = match ResolveControlFlowStmt body (some l) fdOpt with
          | (e, body', fd') => (e, .While l body', fd')) ∧
    (∀ (lo li lb : Nat) (fdOpt : Option FunctionData),
      ResolveControlFlowStmt (.While lo (.While li (.Break lb none))) none fdOpt
        = (none, .While lo (.While li (.Break lb (some li))), fdOpt)) ∧
    (∀ (l w : Nat) (lp0 : Option Nat) (fdOpt : Option FunctionData),
      ResolveControlFlowStmt (.Break l lp0) (some w) fdOpt
        = (none, .Break l (some w), fdOpt)
      ∧ ResolveControlFlowStmt (.Continue l lp0) (some w) fdOpt
        = (none, .Continue l (some w), fdOpt)) ∧
    (∀ (l : Nat) (lp0 : Option Nat) (fdOpt : Option FunctionData),
      ResolveControlFlowStmt (.Break l lp0) none fdOpt
        = (some (.breakOutsideLoop l), .Break l lp0, fdOpt)
      ∧ (CFError.breakOutsideLoop l).message = "break is not within a loop body"
      ∧ (CFError.breakOutsideLoop l).loc = l) ∧
    (∀ (l : Nat) (lp0 : Option Nat) (fdOpt : Option FunctionData),
      ResolveControlFlowStmt (.Continue l lp0) none fdOpt
        = (some (.continueOutsideLoop l), .Continue l lp0, fdOpt)
      ∧ (CFError.continueOutsideLoop l).message
          = "continue is not within a loop body"
      ∧ (CFError.continueOutsideLoop l).loc = l) ∧
    (∀ (li lbk lm l : Nat) (fdOpt : Option FunctionData),
      ResolveControlFlowStmt
        (.If li (.Block lbk (.cons
          (.Match lm (.cons (.Break l none) .nil)) .nil)) .none) none fdOpt
        = (some (.breakOutsideLoop l),
            .If li (.Block lbk (.cons
              (.Match lm (.cons (.Break l none) .nil)) .nil)) .none, fdOpt)) :=
  ⟨fun l body loopOpt fdOpt => resolve_While l body loopOpt fdOpt,
   fun lo li lb fdOpt => by
     simp [resolve_While, resolve_Break_loop],
   fun l w lp0 fdOpt =>
     ⟨resolve_Break_loop l lp0 w fdOpt, resolve_Continue_loop l lp0 w fdOpt⟩,
   fun l lp0 fdOpt => ⟨resolve_Break_noLoop l lp0 fdOpt, rfl, rfl⟩,
   fun l lp0 fdOpt => ⟨resolve_Continue_noLoop l lp0 fdOpt, rfl, rfl⟩,
   fun li lbk lm l fdOpt => by
     simp [resolve_If, resolve_Block, resolve_Match, resolveList_cons,
       resolve_Break_noLoop]⟩

/-- C10: the statement-level resolver terminates on every finite statement
tree: the fuel-bounded variant (which spends one unit of fuel on every
recursive call) already computes the full resolver's result when given the
tree's node count as fuel, because every recursive call — the then/else
blocks of an `If`, the statements of a `Block`, the body of a `While`, the
clause bodies of a `Match`, the body of a `Continuation` — is on a strict
subterm, and all remaining statement kinds return without recursing. -/
theorem C10_terminates_on_finite_trees :
    ∀ (s : Stmt) (loopOpt : Option Nat) (fdOpt : Option FunctionData),
      ResolveControlFlowStmtF (Stmt.size s) s loopOpt fdOpt
        = some (ResolveControlFlowStmt s loopOpt fdOpt) :=
  fun s loopOpt fdOpt => resolveF_adequate s (Stmt.size s) loopOpt fdOpt
    (Nat.le_refl _)

/-- C3: a Return's value-presence must equal the function's declared
contract: with the flag clear, a `Return` whose `is_omitted_expression`
differs from the contract's `is_omitted` fails with the presence-mismatch
diagnostic naming the expected shape, and one that agrees succeeds; the
diagnostic's fixed text says whether a value should (or should not) be
provided. -/
theorem C3_return_value_presence (l : Nat) (om : Bool) (f0 : Option Nat)
    (loopOpt : Option Nat) (f : FunctionDeclaration) :
    (om ≠ f.return_term.is_omitted →
      ResolveControlFlowStmt (.Return l om f0) loopOpt (some ⟨f, false⟩)
        = (some (.presenceMismatch l f.return_term.is_omitted),
            .Return l om (some f.id), some ⟨f, f.return_term.is_auto⟩)) ∧
    (om = f.return_term.is_omitted →
      ResolveControlFlowStmt (.Return l om f0) loopOpt (some ⟨f, false⟩)
        = (none, .Return l om (some f.id), some ⟨f, f.return_term.is_auto⟩)) ∧
    (CFError.presenceMismatch l true).message
      = " should not provide a return value, to match the function's signature."
      ∧
    (CFError.presenceMismatch l false).message
      = " should provide a return value, to match the function's signature." := by
  refine ⟨?_, ?_, rfl, rfl⟩
  · intro hne
    rw [resolve_Return_function]
    have hb : (om != f.return_term.is_omitted) = true := by
      simp [bne_iff_ne, hne]
    cases hau : f.return_term.is_auto <;> simp [hb, hau]
  · intro heq
    rw [resolve_Return_function]
    have hb : (om != f.return_term.is_omitted) = false := by
      simp [heq]
    cases hau : f.return_term.is_auto <;> simp [hb, hau]

/-- C3 witness: a function whose contract requires a value rejects a
value-omitting Return with the presence mismatch, after binding it. -/
theorem C3_return_value_presence_witness :
    ResolveControlFlowStmt (.Return 5 true Option.none) none
        (some ⟨⟨2, ⟨false, false⟩, .none⟩, false⟩)
      = (some (.presenceMismatch 5 false), .Return 5 true (some 2),
          some ⟨⟨2, ⟨false, false⟩, .none⟩, false⟩) :=
  (C3_return_value_presence 5 true Option.none none
    ⟨2, ⟨false, false⟩, .none⟩).1 (by decide)

/-- C9: for a Return in an auto-return function, the multiple-returns check
runs before the function link is set and before value-presence validation:
with the flag already set the diagnostic is the multiple-returns error —
even when the presence also mismatches — and the Return's function link
stays as it was; with the flag clear, the single permitted Return is bound
to the function even when its presence check subsequently fails. -/
theorem C9_multiple_returns_checked_first :
    (∀ (l : Nat) (om : Bool) (f0 : Option Nat) (loopOpt : Option Nat)
        (f : FunctionDeclaration),
      f.return_term.is_auto = true →
      ResolveControlFlowStmt (.Return l om f0) loopOpt (some ⟨f, true⟩)
        = (some (.multipleReturnsInAuto l), .Return l om f0, some ⟨f, true⟩)) ∧
    (∀ (l : Nat) (om : Bool) (f0 : Option Nat) (loopOpt : Option Nat)
        (f : FunctionDeclaration),
      f.return_term.is_auto = true → om ≠ f.return_term.is_omitted →
      ResolveControlFlowStmt (.Return l om f0) loopOpt (some ⟨f, false⟩)
        = (some (.presenceMismatch l f.return_term.is_omitted),
            .Return l om (some f.id), some ⟨f, true⟩)) ∧
    (∀ (f : FunctionDeclaration) (r1 r2 : Nat),
      f.return_term = ⟨true, false⟩ →
      ResolveControlFlowStmtList
          (.cons (.Return r1 false none) (.cons (.Return r2 true none) .nil))
          none (some ⟨f, false⟩)
        = (some (.multipleReturnsInAuto r2),
            .cons (.Return r1 false (some f.id))
              (.cons (.Return r2 true none) .nil),
            some ⟨f, true⟩)) := by
  refine ⟨?_, ?_, ?_⟩
  · intro l om f0 loopOpt f hf
    exact resolve_Return_auto_seen l om f0 loopOpt f hf
  · intro l om f0 loopOpt f hf hne
    rw [resolve_Return_auto_fresh l om f0 loopOpt f hf]
    have hb : (om != f.return_term.is_omitted) = true := by
      simp [bne_iff_ne, hne]
    simp [hb]
  · intro f r1 r2 hrt
    have hf : f.return_term.is_auto = true := by rw [hrt]
    have hom : f.return_term.is_omitted = false := by rw [hrt]
    simp [resolveList_cons, resolve_Return_auto_fresh r1 false none none f hf,
      resolve_Return_auto_seen r2 true none none f hf, hom]

/-- C9 witness: with the flag already set, a mismatched-presence Return in
an auto function still reports the multiple-returns error and its link
stays unset. -/
theorem C9_multiple_returns_checked_first_witness :
    ResolveControlFlowStmt (.Return 1 true Option.none) none
        (some ⟨⟨0, ⟨true, false⟩, .none⟩, true⟩)
      = (some (.multipleReturnsInAuto 1), .Return 1 true Option.none,
          some ⟨⟨0, ⟨true, false⟩, .none⟩, true⟩) :=
  C9_multiple_returns_checked_first.1 1 true Option.none none
    ⟨0, ⟨true, false⟩, .none⟩ rfl

/-- C4: a Continuation resolves its body with both the loop context and the
function context cleared, an independent control region: a Return inside a
continuation body fails with "return is not within a function body" (and in
general a continuation whose resolution succeeds contains no Return at
all, there being no function declarations inside statements), while a Break
inside a continuation body that contains a While binds to that inner While
and never to any loop enclosing the Continuation. -/
theorem C4_continuation_clears_contexts :
    (∀ (l : Nat) (body : Stmt) (loopOpt : Option Nat)
        (fdOpt : Option FunctionData),
      ResolveControlFlowStmt (.Continuation l body) loopOpt fdOpt
        = match ResolveControlFlowStmt body none none with
          | (e, body', _) => (e, .Continuation l body', fdOpt)) ∧
    (∀ (l rl : Nat) (om : Bool) (f0 : Option Nat) (loopOpt : Option Nat)
        (fdOpt : Option FunctionData),
      ResolveControlFlowStmt (.Continuation l (.Return rl om f0)) loopOpt fdOpt
        = (some (.returnOutsideFunction rl),
            .Continuation l (.Return rl om f0), fdOpt)
      ∧ (CFError.returnOutsideFunction rl).message
          = "return is not within a function body"
      ∧ (CFError.returnOutsideFunction rl).loc = rl) ∧
    (∀ (l : Nat) (body : Stmt) (loopOpt : Option Nat)
        (fdOpt : Option FunctionData) (s' : Stmt) (fd' : Option FunctionData),
      ResolveControlFlowStmt (.Continuation l body) loopOpt fdOpt
          = (none, s', fd') →
      noReturns body = true) ∧
    (∀ (lo lc li lb : Nat) (fdOpt : Option FunctionData),
      ResolveControlFlowStmt
          (.While lo (.Continuation lc (.While li (.Break lb none)))) none fdOpt
        = (none,
            .While lo (.Continuation lc (.While li (.Break lb (some li)))),
            fdOpt)) := by
  refine ⟨?_, ?_, ?_, ?_⟩
  · intro l body loopOpt fdOpt
    exact resolve_Continuation l body loopOpt fdOpt
  · intro l rl om f0 loopOpt fdOpt
    exact ⟨by simp [resolve_Continuation, resolve_Return_noFunction], rfl, rfl⟩
  · intro l body loopOpt fdOpt s' fd' h
    rcases hres : ResolveControlFlowStmt body none none with ⟨e1, b', fdI⟩
    simp only [resolve_Continuation, hres] at h
    simp only [Prod.mk.injEq] at h
    obtain ⟨he1, -, -⟩ := h
    have hnr := (resolve_fdNone body none).2.2
    rw [hres] at hnr
    exact hnr (by rw [he1])
  · intro lo lc li lb fdOpt
    simp [resolve_While, resolve_Continuation, resolve_Break_loop]

/-- C4 witness: a continuation body containing no Return resolves, so the
no-Return consequence instantiates. -/
theorem C4_continuation_clears_contexts_witness :
    noReturns (.Assign 9) = true :=
  C4_continuation_clears_contexts.2.2.1 1 (.Assign 9) none none
    (.Continuation 1 (.Assign 9)) none rfl

/-- C5: a Match resolves every clause body with the loop and function
context unchanged — clauses introduce neither a new loop nor a new function
scope — so a Break inside a clause binds to a loop enclosing the whole
Match, and Returns inside clauses count against the enclosing function's
auto-return limit. -/
theorem C5_match_clauses_inherit_context :
    (∀ (l : Nat) (cs : StmtList) (loopOpt : Option Nat)
        (fdOpt : Option FunctionData),
      ResolveControlFlowStmt (.Match l cs) loopOpt fdOpt
        = match ResolveControlFlowStmtList cs loopOpt fdOpt with
          | (e, cs', fd') => (e, .Match l cs', fd')) ∧
    (∀ (s : Stmt) (rest : StmtList) (loopOpt : Option Nat)
        (fdOpt : Option FunctionData),
      ResolveControlFlowStmtList (.cons s rest) loopOpt fdOpt
        = match ResolveControlFlowStmt s loopOpt fdOpt with
          | (some e, s', fd') => (some e, .cons s' rest, fd')
          | (none, s', fd') =>
            match ResolveControlFlowStmtList rest loopOpt fd' with
            | (e2, rest', fd2) => (e2, .cons s' rest', fd2)) ∧
    (∀ (wl ml bl : Nat) (fdOpt : Option FunctionData),
      ResolveControlFlowStmt
          (.While wl (.Match ml (.cons (.Break bl none) .nil))) none fdOpt
        = (none, .While wl (.Match ml (.cons (.Break bl (some wl)) .nil)),
            fdOpt)) ∧
    (∀ (f : FunctionDeclaration) (ml r1 r2 : Nat),
      f.return_term = ⟨true, false⟩ →
      ResolveControlFlowStmt
          (.Match ml (.cons (.Return r1 false none)
            (.cons (.Return r2 false none) .nil))) none (some ⟨f, false⟩)
        = (some (.multipleReturnsInAuto r2),
            .Match ml (.cons (.Return r1 false (some f.id))
              (.cons (.Return r2 false none) .nil)),
            some ⟨f, true⟩)) := by
  refine ⟨?_, ?_, ?_, ?_⟩
  · intro l cs loopOpt fdOpt
    exact resolve_Match l cs loopOpt fdOpt
  · intro s rest loopOpt fdOpt
    exact resolveList_cons s rest loopOpt fdOpt
  · intro wl ml bl fdOpt
    simp [resolve_While, resolve_Match, resolveList_cons, resolveList_nil,
      resolve_Break_loop]
  · intro f ml r1 r2 hrt
    have hf : f.return_term.is_auto = true := by rw [hrt]
    have hom : f.return_term.is_omitted = false := by rw [hrt]
    simp [resolve_Match, resolveList_cons, resolveList_nil,
      resolve_Return_auto_fresh r1 false none none f hf,
      resolve_Return_auto_seen r2 false none none f hf, hom]

/-- C5 witness: two Returns in two different clauses of one Match inside an
auto-return function trip the multiple-returns limit at the second. -/
theorem C5_match_clauses_inherit_context_witness :
    ResolveControlFlowStmt
        (.Match 1 (.cons (.Return 2 false Option.none)
          (.cons (.Return 3 false Option.none) .nil))) none
        (some ⟨⟨4, ⟨true, false⟩, .none⟩, false⟩)
      = (some (.multipleReturnsInAuto 3),
          .Match 1 (.cons (.Return 2 false (some 4))
            (.cons (.Return 3 false Option.none) .nil)),
          some ⟨⟨4, ⟨true, false⟩, .none⟩, true⟩) :=
  C5_match_clauses_inherit_context.2.2.2 ⟨4, ⟨true, false⟩, .none⟩ 1 2 3 rfl

/-- C1: in a function with an `auto` return term, resolving the body
accepts exactly one Return: a successful resolution has visited at most one
lexical Return and has marked the `saw_return_in_auto` flag exactly when it
visited one; whenever the multiple-returns diagnostic is raised it carries
the source location of the second lexical Return in traversal order — the
check is lexical, not flow-sensitive: in the spec's scenario `G`
(`{ while (true) { return 1; } return 2; }`) the Return nested in the While
is accepted and bound while the outer Return fails at its own location, and
two Returns in mutually exclusive if/else branches likewise fail at the
second's location. -/
theorem C1_auto_return_exactly_one :
    (∀ (s : Stmt) (f : FunctionDeclaration) (loopOpt : Option Nat)
        (s' : Stmt) (fd' : Option FunctionData),
      f.return_term.is_auto = true →
      ResolveControlFlowStmt s loopOpt (some ⟨f, false⟩) = (none, s', fd') →
      (returnLocs s).length ≤ 1
        ∧ fd' = some ⟨f, !(returnLocs s).isEmpty⟩) ∧
    (∀ (s : Stmt) (f : FunctionDeclaration) (loopOpt : Option Nat) (l : Nat)
        (s' : Stmt) (fd' : Option FunctionData),
      f.return_term.is_auto = true →
      ResolveControlFlowStmt s loopOpt (some ⟨f, false⟩)
          = (some (.multipleReturnsInAuto l), s', fd') →
      (returnLocs s).get? 1 = some l) ∧
    (∀ (f : FunctionDeclaration) (l1 l2 l3 l4 : Nat),
      f.return_term = ⟨true, false⟩ →
      ResolveControlFlowStmt
          (.Block l1 (.cons (.While l2 (.Return l3 false none))
            (.cons (.Return l4 false none) .nil))) none (some ⟨f, false⟩)
        = (some (.multipleReturnsInAuto l4),
            .Block l1 (.cons (.While l2 (.Return l3 false (some f.id)))
              (.cons (.Return l4 false none) .nil)),
            some ⟨f, true⟩)) ∧
    (∀ (f : FunctionDeclaration) (l1 l2 l3 : Nat),
      f.return_term = ⟨true, false⟩ →
      ResolveControlFlowStmt
          (.If l1 (.Return l2 false none) (.some (.Return l3 false none)))
          none (some ⟨f, false⟩)
        = (some (.multipleReturnsInAuto l3),
            .If l1 (.Return l2 false (some f.id))
              (.some (.Return l3 false none)),
            some ⟨f, true⟩)) := by
  refine ⟨?_, ?_, ?_, ?_⟩
  · intro s f loopOpt s' fd' hf h
    obtain ⟨hfd, hlen⟩ := resolve_auto_success s loopOpt f false s' fd' hf h
    exact ⟨by simpa using hlen, by simpa using hfd⟩
  · intro s f loopOpt l s' fd' hf h
    have := resolve_auto_multi s loopOpt f false l s' fd' hf h
    simpa using this
  · intro f l1 l2 l3 l4 hrt
    have hf : f.return_term.is_auto = true := by rw [hrt]
    have hom : f.return_term.is_omitted = false := by rw [hrt]
    simp [resolve_Block, resolveList_cons, resolveList_nil, resolve_While,
      resolve_Return_auto_fresh l3 false none (some l2) f hf,
      resolve_Return_auto_seen l4 false none none f hf, hom]
  · intro f l1 l2 l3 hrt
    have hf : f.return_term.is_auto = true := by rw [hrt]
    have hom : f.return_term.is_omitted = false := by rw [hrt]
    simp [resolve_If, resolveOpt_some,
      resolve_Return_auto_fresh l2 false none none f hf,
      resolve_Return_auto_seen l3 false none none f hf, hom]

/-- C1 witness: scenario `G` at a concrete auto-return function — the
Return inside the While is accepted and bound, the later Return fails with
the multiple-returns diagnostic at its own location. -/
theorem C1_auto_return_exactly_one_witness :
    ResolveControlFlowStmt
        (.Block 1 (.cons (.While 2 (.Return 3 false Option.none))
          (.cons (.Return 4 false Option.none) .nil))) none
        (some ⟨⟨0, ⟨true, false⟩, .none⟩, false⟩)
      = (some (.multipleReturnsInAuto 4),
          .Block 1 (.cons (.While 2 (.Return 3 false (some 0)))
            (.cons (.Return 4 false Option.none) .nil)),
          some ⟨⟨0, ⟨true, false⟩, .none⟩, true⟩) :=
  C1_auto_return_exactly_one.2.2.1 ⟨0, ⟨true, false⟩, .none⟩ 1 2 3 4 rfl

/-- C6: for a function with a non-auto return contract requiring a value,
resolving a body whose every Return supplies a value (and whose
breaks/continues sit inside loops, per `resolvesCleanly`) succeeds with no
diagnostic, every one of those Returns — any number of them — is bound to
that function's declaration, and the function context is left unchanged
(the multiple-returns restriction applies only to `auto`); in particular
the spec's scenario `F` (`{ if (c) { return 1; } else { return 2; } }`)
resolves both Returns to the function with no error. -/
theorem C6_nonauto_any_number_of_returns :
    (∀ (s : Stmt) (f : FunctionDeclaration),
      f.return_term.is_auto = false →
      f.return_term.is_omitted = false →
      resolvesCleanly s false (some f.return_term) = true →
      ∃ s', ResolveControlFlowStmt s none (some ⟨f, false⟩)
            = (none, s', some ⟨f, false⟩)
        ∧ returnsBoundTo s' f.id = true) ∧
    (∀ (f : FunctionDeclaration) (l1 l2 l3 : Nat),
      f.return_term = ⟨false, false⟩ →
      ResolveControlFlowStmt
          (.If l1 (.Return l2 false none) (.some (.Return l3 false none)))
          none (some ⟨f, false⟩)
        = (none,
            .If l1 (.Return l2 false (some f.id))
              (.some (.Return l3 false (some f.id))),
            some ⟨f, false⟩)) := by
  refine ⟨?_, ?_⟩
  · intro s f hf homit hc
    obtain ⟨s', heq, hb⟩ := resolve_clean s none (some ⟨f, false⟩)
      (fun d hd => by cases hd; exact hf) (by simpa using hc)
    exact ⟨s', heq, hb f.id (fun d hd => by cases hd; rfl)⟩
  · intro f l1 l2 l3 hrt
    have hf : f.return_term.is_auto = false := by rw [hrt]
    have hom : f.return_term.is_omitted = false := by rw [hrt]
    simp [resolve_If, resolveOpt_some,
      resolve_Return_nonauto l2 false none none f false hf,
      resolve_Return_nonauto l3 false none none f false hf, hom]

/-- C6 witness: scenario `F` through the general statement at a concrete
function — success, with both Returns bound. -/
theorem C6_nonauto_any_number_of_returns_witness :
    ∃ s', ResolveControlFlowStmt
          (.If 1 (.Return 2 false Option.none)
            (.some (.Return 3 false Option.none)))
          none (some ⟨⟨7, ⟨false, false⟩, .none⟩, false⟩)
        = (none, s', some ⟨⟨7, ⟨false, false⟩, .none⟩, false⟩)
      ∧ returnsBoundTo s' 7 = true :=
  C6_nonauto_any_number_of_returns.1
    (.If 1 (.Return 2 false Option.none) (.some (.Return 3 false Option.none)))
    ⟨7, ⟨false, false⟩, .none⟩ rfl rfl rfl

/-- C7: resolving a ClassDeclaration recurses into each member declaration
independently, each member function with a body starting from a fresh
`FunctionData` (flag false), so the auto-return count of one method neither
affects nor is affected by sibling methods; a function declaration without
a body, and every declaration kind other than function and class
declarations, are left entirely unchanged. -/
theorem C7_class_members_resolved_independently :
    (∀ (i : Nat) (members : DeclarationList),
      ResolveControlFlowDecl (.classDecl i members)
        = match ResolveControlFlowDeclList members with
          | (e, members') => (e, .classDecl i members')) ∧
    (∀ (d : Declaration) (rest : DeclarationList),
      ResolveControlFlowDeclList (.cons d rest)
        = match ResolveControlFlowDecl d with
          | (some e, d') => (some e, .cons d' rest)
          | (none, d') =>
            match ResolveControlFlowDeclList rest with
            | (e, rest') => (e, .cons d' rest')) ∧
    (∀ (i : Nat) (rt : ReturnTerm) (b : Stmt),
      ResolveControlFlowDecl (.functionDecl ⟨i, rt, .some b⟩)
        = match ResolveControlFlowStmt b none (some ⟨⟨i, rt, .some b⟩, false⟩) with
          | (e, b', _) => (e, .functionDecl ⟨i, rt, .some b'⟩)) ∧
    (∀ (i : Nat) (rt : ReturnTerm),
      ResolveControlFlowDecl (.functionDecl ⟨i, rt, .none⟩)
        = (none, .functionDecl ⟨i, rt, .none⟩)) ∧
    (∀ (i : Nat),
      ResolveControlFlowDecl (.otherDecl i) = (none, .otherDecl i)) ∧
    (∀ (ci i1 i2 r1 r2 : Nat),
      ResolveControlFlowDecl (.classDecl ci
          (.cons (.functionDecl ⟨i1, ⟨true, false⟩,
              .some (.Return r1 false none)⟩)
            (.cons (.functionDecl ⟨i2, ⟨true, false⟩,
                .some (.Return r2 false none)⟩) .nil)))
        = (none, .classDecl ci
            (.cons (.functionDecl ⟨i1, ⟨true, false⟩,
                .some (.Return r1 false (some i1))⟩)
              (.cons (.functionDecl ⟨i2, ⟨true, false⟩,
                  .some (.Return r2 false (some i2))⟩) .nil)))) := by
  refine ⟨?_, ?_, ?_, ?_, ?_, ?_⟩
  · intro i members
    exact resolveDecl_class i members
  · intro d rest
    exact resolveDeclList_cons d rest
  · intro i rt b
    exact resolveDecl_function_body i rt b
  · intro i rt
    exact resolveDecl_function_noBody i rt
  · intro i
    exact resolveDecl_other i
  · intro ci i1 i2 r1 r2
    simp [resolveDecl_class, resolveDeclList_cons, resolveDeclList_nil,
      resolveDecl_function_body, resolve_Return_function]

/-- C8: resolution halts at the first violation with no partial result
beyond the point of failure: a failing statement aborts its statement
sequence with later statements (and an unvisited else-branch, and later
class members) returned untouched; each diagnostic carries the offending
statement's own source location; concretely, a Return after a failing
bare Break keeps its function link unset. -/
theorem C8_halts_at_first_violation :
    (∀ (s : Stmt) (rest : StmtList) (loopOpt : Option Nat)
        (fdOpt : Option FunctionData) (e : CFError) (s' : Stmt)
        (fd' : Option FunctionData),
      ResolveControlFlowStmt s loopOpt fdOpt = (some e, s', fd') →
      ResolveControlFlowStmtList (.cons s rest) loopOpt fdOpt
        = (some e, .cons s' rest, fd')) ∧
    (∀ (l : Nat) (t : Stmt) (eb : OptStmt) (loopOpt : Option Nat)
        (fdOpt : Option FunctionData) (e : CFError) (t' : Stmt)
        (fd' : Option FunctionData),
      ResolveControlFlowStmt t loopOpt fdOpt = (some e, t', fd') →
      ResolveControlFlowStmt (.If l t eb) loopOpt fdOpt
        = (some e, .If l t' eb, fd')) ∧
    (∀ (d : Declaration) (rest : DeclarationList) (e : CFError)
        (d' : Declaration),
      ResolveControlFlowDecl d = (some e, d') →
      ResolveControlFlowDeclList (.cons d rest) = (some e, .cons d' rest)) ∧
    (∀ (l : Nat) (om : Bool) (f0 : Option Nat) (loopOpt : Option Nat),
      (ResolveControlFlowStmt (.Return l om f0) loopOpt none).1
          = some (.returnOutsideFunction l)
        ∧ (CFError.returnOutsideFunction l).loc = l) ∧
    (∀ (l : Nat) (lp0 : Option Nat) (fdOpt : Option FunctionData),
      (ResolveControlFlowStmt (.Break l lp0) none fdOpt).1
          = some (.breakOutsideLoop l)
        ∧ (CFError.breakOutsideLoop l).loc = l
        ∧ (ResolveControlFlowStmt (.Continue l lp0) none fdOpt).1
          = some (.continueOutsideLoop l)
        ∧ (CFError.continueOutsideLoop l).loc = l) ∧
    (∀ (lb lr : Nat) (om : Bool) (fdOpt : Option FunctionData),
      ResolveControlFlowStmtList
          (.cons (.Break lb none) (.cons (.Return lr om none) .nil))
          none fdOpt
        = (some (.breakOutsideLoop lb),
            .cons (.Break lb none) (.cons (.Return lr om none) .nil),
            fdOpt)) := by
  refine ⟨?_, ?_, ?_, ?_, ?_, ?_⟩
  · intro s rest loopOpt fdOpt e s' fd' h
    simp only [resolveList_cons, h]
  · intro l t eb loopOpt fdOpt e t' fd' h
    simp only [resolve_If, h]
  · intro d rest e d' h
    simp only [resolveDeclList_cons, h]
  · intro l om f0 loopOpt
    exact ⟨by rw [resolve_Return_noFunction], rfl⟩
  · intro l lp0 fdOpt
    exact ⟨by rw [resolve_Break_noLoop], rfl,
      by rw [resolve_Continue_noLoop], rfl⟩
  · intro lb lr om fdOpt
    simp [resolveList_cons, resolve_Break_noLoop]

/-- C8 witness: a bare Break aborts its block; the following statement is
returned untouched. -/
theorem C8_halts_at_first_violation_witness :
    ResolveControlFlowStmtList
        (.cons (.Break 3 Option.none) (.cons (.Assign 4) .nil)) none none
      = (some (.breakOutsideLoop 3),
          .cons (.Break 3 Option.none) (.cons (.Assign 4) .nil), none) :=
  C8_halts_at_first_violation.1 (.Break 3 Option.none) (.cons (.Assign 4) .nil)
    none none (.breakOutsideLoop 3) (.Break 3 Option.none) none rfl

end CarbonResolve
